import Mathlib

/-!
Verification development for the OMOP concept-lookup engine
(`backend/omop_lookup/` : `normalize.py`, `config.py`, `models.py`,
`database.py`, `search.py`, `__init__.py`).

Modelling conventions:
* Python floats are modelled as exact rationals (`ℚ`); the claims under
  study are algebraic relations (max, product, cap) that do not depend on
  rounding.
* DuckDB tables are modelled as Lean lists of rows; SQL `SELECT ... WHERE
  ... LIMIT n` becomes `filter`/`take`.
* The external fuzzy scorer (RapidFuzz `fuzz.WRatio`) and the external
  semantic index (FAISS + embedding model) are modelled as oracle
  parameters (`wratio : String → String → ℚ`,
  `semSearch : String → Nat → List (Int × ℚ)`); the engine's own logic is
  translated from the source.
* Wall-clock timing fields (`search_time_ms`, `total_time_ms`) are
  modelled as `0`; no claim concerns timing.
* The Unicode primitives used by `normalize_text`
  (`unicodedata.normalize("NFKD")`, `str.lower`,
  `unicodedata.combining`, the regex classes `\w`/`\s`) are external
  library functions, modelled character-by-character by finite tables
  that agree with CPython on the modelled alphabet (ASCII plus a set of
  accented/compatibility exemplar characters).
-/

/-! ## Normalizer (`normalize.py`) -/

/-- Whitespace characters recognised by Python's `str.split()` and the
regex class `\s` (ASCII portion). -/
def isPySpace (c : Char) : Bool :=
  c = ' ' || c = '\t' || c = '\n' || c = '\x0d' || c = '\x0b' || c = '\x0c'

/-- Word characters, the regex class `\w`: ASCII alphanumerics, the
underscore, and the modelled extra (non-ASCII) letters, which have no
NFKD decomposition. -/
def isWordChar (c : Char) : Bool :=
  (0x30 ≤ c.toNat && c.toNat ≤ 0x39) ||
  (0x41 ≤ c.toNat && c.toNat ≤ 0x5a) ||
  (0x61 ≤ c.toNat && c.toNat ≤ 0x7a) ||
  c = '_' || c = 'ø' || c = 'æ' || c = 'ß' || c = 'þ' || c = 'ð' 

/-- Combining diacritical marks (`unicodedata.combining(ch) != 0`),
modelled by the main combining block U+0300..U+036F. -/
def combiningMark (c : Char) : Bool :=
  0x300 ≤ c.toNat && c.toNat ≤ 0x36f

/-- Finite model of the NFKD decomposition table
(`unicodedata.normalize("NFKD", ...)` applied character-wise): accented
letters split into base letter plus combining mark, compatibility
characters (ligatures, superscripts, vulgar fractions) expand. -/
def nfkdTable : List (Char × List Char) :=
  [ ('À', ['A', '\u0300']), ('Á', ['A', '\u0301']),
    ('É', ['E', '\u0301']), ('é', ['e', '\u0301']),
    ('è', ['e', '\u0300']), ('ê', ['e', '\u0302']), ('ë', ['e', '\u0308']),
    ('ü', ['u', '\u0308']), ('Ü', ['U', '\u0308']),
    ('ñ', ['n', '\u0303']), ('Ñ', ['N', '\u0303']),
    ('ö', ['o', '\u0308']), ('Ö', ['O', '\u0308']),
    ('ç', ['c', '\u0327']), ('Ç', ['C', '\u0327']),
    ('\ufb01', ['f', 'i']), ('\ufb02', ['f', 'l']),
    ('¹', ['1']), ('²', ['2']), ('³', ['3']),
    ('½', ['1', '\u2044', '2']) ]

/-- NFKD decomposition of one character: table entry if present,
otherwise the character itself. -/
def nfkdChar (c : Char) : List Char :=
  ((nfkdTable.find? (fun p => p.1 = c)).map (fun p => p.2)).getD [c]

/-- Case table modelling Python's `str.lower()` on the modelled
alphabet: the ASCII uppercase letters plus uppercase extra letters. -/
def lowerTable : List (Char × Char) :=
  [ ('A', 'a'), ('B', 'b'), ('C', 'c'), ('D', 'd'), ('E', 'e'),
    ('F', 'f'), ('G', 'g'), ('H', 'h'), ('I', 'i'), ('J', 'j'),
    ('K', 'k'), ('L', 'l'), ('M', 'm'), ('N', 'n'), ('O', 'o'),
    ('P', 'p'), ('Q', 'q'), ('R', 'r'), ('S', 's'), ('T', 't'),
    ('U', 'u'), ('V', 'v'), ('W', 'w'), ('X', 'x'), ('Y', 'y'),
    ('Z', 'z'), ('Ø', 'ø'), ('Æ', 'æ'), ('Þ', 'þ'), ('Ð', 'ð') ]

/-- Lower-casing of one character (`str.lower()` acts character-wise on
the modelled alphabet). -/
def pyLower (c : Char) : Char :=
  ((lowerTable.find? (fun p => p.1 = c)).map (fun p => p.2)).getD c

/-- Character-level pipeline of `normalize_text` before whitespace
collapsing: NFKD decomposition, lower-casing, removal of combining
marks, and replacement of non-word non-space characters by a space
(`re.sub(r"[^\w\s]", " ", text)`). -/
def normalizeChars (cs : List Char) : List Char :=
  (((cs.flatMap nfkdChar).map pyLower).filter (fun c => !combiningMark c)).map
    (fun c => if isWordChar c || isPySpace c then c else ' ')

/-- Splitting on whitespace runs, as Python's `str.split()`: the
accumulator holds the current word reversed. -/
def splitWsAux : List Char → List Char → List (List Char)
  | [], acc => if acc.isEmpty then [] else [acc.reverse]
  | c :: cs, acc =>
    if isPySpace c then
      if acc.isEmpty then splitWsAux cs [] else acc.reverse :: splitWsAux cs []
    else
      splitWsAux cs (c :: acc)

/-- Words of a character list, Python `text.split()`. -/
def splitWsChars (cs : List Char) : List (List Char) := splitWsAux cs []

/-- Interleave single spaces between words, Python `" ".join(words)`. -/
def joinSpace : List (List Char) → List Char
  | [] => []
  | [w] => w
  | w :: ws => w ++ ' ' :: joinSpace ws

/-- Model of `normalize_text` (`normalize.py:15`): empty-string guard,
NFKD decomposition, lower-casing, diacritic stripping, replacement of
non-word characters by spaces, and whitespace collapsing via
`" ".join(text.split())`. -/
def normalize_text (s : String) : String :=
  if s = "" then "" else
    ⟨joinSpace (splitWsChars (normalizeChars s.data))⟩

/-- Model of `tokenize` (`normalize.py:79`): `text.split()`. -/
def tokenize (s : String) : List String :=
  (splitWsChars s.data).map (fun w => ⟨w⟩)

example : normalize_text "Myocardial Infarction (Heart Attack)"
    = "myocardial infarction heart attack" := by decide
example : normalize_text "  Caféé  au_lait! " = "cafee au_lait" := by
  decide
example : tokenize "myocardial infarction" = ["myocardial", "infarction"] := by
  decide

/-! ## Configuration (`config.py`) -/

/-- Association-list lookup modelling Python `dict.get`. -/
def lookupAssoc {α : Type} (l : List (String × α)) (k : String) : Option α :=
  (l.find? (fun p => p.1 = k)).map (fun p => p.2)

/-- Domain-aware vocabulary preference table
(`LookupConfig.vocabulary_preferences`, `config.py:48`). -/
def defaultVocabPrefs : List (String × List (String × ℚ)) :=
  [ ("Condition",
      [("SNOMED", 1), ("ICD10CM", 8/10), ("ICD9CM", 6/10), ("MedDRA", 7/10)]),
    ("Procedure",
      [("SNOMED", 1), ("CPT4", 95/100), ("HCPCS", 85/100),
       ("ICD10PCS", 8/10), ("ICD9Proc", 6/10)]),
    ("Drug",
      [("RxNorm", 1), ("RxNorm Extension", 95/100), ("NDC", 7/10),
       ("ATC", 6/10)]),
    ("Measurement", [("LOINC", 1), ("SNOMED", 8/10)]),
    ("Observation", [("SNOMED", 1), ("LOINC", 9/10)]),
    ("Device", [("SNOMED", 1), ("HCPCS", 8/10)]),
    ("Specimen", [("SNOMED", 1)]),
    ("default", [("SNOMED", 1), ("RxNorm", 9/10), ("LOINC", 9/10)]) ]

/-- Model of `LookupConfig` (`config.py:12`).  File-path and
embedding-model fields are omitted: they configure external I/O that the
shallow embedding abstracts away. -/
structure LookupConfig where
  fuzzy_high_confidence : ℚ := 95
  fuzzy_min_threshold : ℚ := 70
  semantic_high_confidence : ℚ := 85/100
  semantic_min_threshold : ℚ := 60/100
  confidence_threshold : ℚ := 75/100
  top_k_candidates : Nat := 5
  require_standard : Bool := false
  vocabulary_preferences : List (String × List (String × ℚ)) :=
    defaultVocabPrefs
  default_vocab_weight : ℚ := 1/2
  max_fuzzy_candidates : Nat := 1000
deriving Repr, DecidableEq

/-- The module-level `DEFAULT_CONFIG` singleton (`config.py:137`). -/
def DEFAULT_CONFIG : LookupConfig := {}

/-- Model of `ConceptSearcher._get_vocab_weight` (`search.py:385`):
`prefs = config.vocabulary_preferences.get(domain,
config.vocabulary_preferences.get("default", {}))`, then
`prefs.get(vocabulary_id, config.default_vocab_weight)`. -/
def LookupConfig.get_vocab_weight (cfg : LookupConfig)
    (vocabulary_id domain_id : String) : ℚ :=
  let prefs := (lookupAssoc cfg.vocabulary_preferences domain_id).getD
    ((lookupAssoc cfg.vocabulary_preferences "default").getD [])
  (lookupAssoc prefs vocabulary_id).getD cfg.default_vocab_weight

/-! ## Result models (`models.py`) -/

/-- Model of `MatchType` (`models.py:12`). -/
inductive MatchType where
  | exact_name
  | exact_synonym
  | fuzzy_name
  | fuzzy_synonym
  | semantic
deriving Repr, DecidableEq

/-- Model of `ResolutionStatus` (`models.py:21`). -/
inductive ResolutionStatus where
  | already_standard
  | mapped_to_standard
  | no_mapping_available
deriving Repr, DecidableEq

/-- Model of the `ConceptMatch` dataclass (`models.py:29`). -/
structure ConceptMatch where
  concept_id : Int
  concept_name : String
  domain_id : String
  vocabulary_id : String
  concept_class_id : String
  standard_concept : Option String
  confidence : ℚ
  match_type : MatchType
  matched_text : String
  resolution_status : ResolutionStatus
  standard_concept_id : Option Int := none
  standard_concept_name : Option String := none
  concept_code : Option String := none
deriving Repr, DecidableEq

/-- Model of `ConceptMatch.get_analytics_concept_id` (`models.py:74`). -/
def ConceptMatch.get_analytics_concept_id (m : ConceptMatch) : Option Int :=
  match m.resolution_status with
  | .already_standard => some m.concept_id
  | .mapped_to_standard => m.standard_concept_id
  | .no_mapping_available => none

/-- Model of `ConceptMatch.is_usable_for_analytics` (`models.py:61`). -/
def ConceptMatch.is_usable_for_analytics (m : ConceptMatch) : Bool :=
  m.resolution_status = .already_standard ||
  m.resolution_status = .mapped_to_standard

/-- Model of the `LookupResult` dataclass (`models.py:109`);
`search_time_ms` is always `0` in the model. -/
structure LookupResult where
  query : String
  normalized_query : String
  domain_filter : Option String
  success : Bool
  best_match : Option ConceptMatch := none
  candidates : List ConceptMatch := []
  search_time_ms : ℚ := 0
  warnings : List String := []
deriving Repr, DecidableEq

/-- Model of `BatchLookupResult` (`models.py:147`). -/
structure BatchLookupResult where
  results : List LookupResult
  total_queries : Nat
  successful_queries : Nat
  total_time_ms : ℚ
deriving Repr, DecidableEq

/-! ## Vocabulary store (`database.py`) -/

/-- Row of the `concept` table as selected by `_load_concept_table`
(`database.py:110`); the validity-date columns are never consulted by
the lookup path and are omitted. -/
structure OMOPConcept where
  concept_id : Int
  concept_name : String
  domain_id : String
  vocabulary_id : String
  concept_class_id : String
  standard_concept : Option String
  concept_code : Option String
  invalid_reason : Option String := none
deriving Repr, DecidableEq

/-- Row of the `concept_relationship` table (`database.py:163`). -/
structure RelationshipRow where
  concept_id_1 : Int
  concept_id_2 : Int
  relationship_id : String
  invalid_reason : Option String := none
deriving Repr, DecidableEq

/-- Row of the denormalized `maps_to_lookup` table (`database.py:185`). -/
structure MapsToRow where
  source_concept_id : Int
  standard_concept_id : Int
  standard_concept_name : String
  standard_domain_id : String
  standard_vocabulary_id : String
deriving Repr, DecidableEq

/-- Row of the unified `concept_search` table (`database.py:216`): one
row per concept name and per synonym, pre-joined with concept metadata
and carrying the SQL-normalized search text. -/
structure SearchRow where
  concept_id : Int
  search_text : String
  source_type : String
  concept_name : String
  domain_id : String
  vocabulary_id : String
  concept_class_id : String
  standard_concept : Option String
  concept_code : Option String
  invalid_reason : Option String := none
  search_text_normalized : String
deriving Repr, DecidableEq

/-- Python-dict shape shared by the three row providers consumed by the
searcher (`exact_match`, `get_candidates_by_token_overlap`,
`get_concept_by_id`).  `Option` fields model dictionary keys that are
present only for some providers, matching the `.get(...)` accesses in
`search.py`. -/
structure ConceptRow where
  concept_id : Int
  search_text : Option String := none
  search_text_normalized : Option String := none
  source_type : Option String := none
  concept_name : String
  domain_id : String
  vocabulary_id : String
  concept_class_id : Option String := none
  standard_concept : Option String
  concept_code : Option String := none
deriving Repr, DecidableEq

/-- Dict returned by `OMOPDatabase.exact_match` (`database.py:343`
column list: no `search_text_normalized`). -/
def SearchRow.toExactDict (r : SearchRow) : ConceptRow :=
  { concept_id := r.concept_id, search_text := some r.search_text,
    search_text_normalized := none, source_type := some r.source_type,
    concept_name := r.concept_name, domain_id := r.domain_id,
    vocabulary_id := r.vocabulary_id,
    concept_class_id := some r.concept_class_id,
    standard_concept := r.standard_concept,
    concept_code := r.concept_code }

/-- Dict returned by `OMOPDatabase.get_candidates_by_token_overlap`
(`database.py:404` column list: includes `search_text_normalized`). -/
def SearchRow.toCandDict (r : SearchRow) : ConceptRow :=
  { concept_id := r.concept_id, search_text := some r.search_text,
    search_text_normalized := some r.search_text_normalized,
    source_type := some r.source_type,
    concept_name := r.concept_name, domain_id := r.domain_id,
    vocabulary_id := r.vocabulary_id,
    concept_class_id := some r.concept_class_id,
    standard_concept := r.standard_concept,
    concept_code := r.concept_code }

/-- Dict returned by `OMOPDatabase.get_concept_by_id`
(`database.py:467`: concept-table columns only — no `search_text`,
no `source_type`). -/
def OMOPConcept.toDict (c : OMOPConcept) : ConceptRow :=
  { concept_id := c.concept_id,
    concept_name := c.concept_name, domain_id := c.domain_id,
    vocabulary_id := c.vocabulary_id,
    concept_class_id := some c.concept_class_id,
    standard_concept := c.standard_concept,
    concept_code := c.concept_code }

/-- In-memory model of `OMOPDatabase` after `initialize()`: the three
tables the query path reads.  CSV loading, connection handling and index
creation are I/O concerns outside the shallow embedding. -/
structure OMOPDatabase where
  concept : List OMOPConcept
  concept_search : List SearchRow
  maps_to_lookup : List MapsToRow
deriving Repr, DecidableEq

/-- Domain-filter test shared by the query methods.  Python guards the
filter with `if domain_filter:`, so `None` and the empty string both
disable the filter (truthiness). -/
def domainOk (domain_filter : Option String) (dom : String) : Bool :=
  match domain_filter with
  | none => true
  | some d => d = "" || dom = d

/-- Substring containment of character lists, modelling the SQL pattern
`search_text_normalized LIKE '%token%'` (`database.py:400`; LIKE
metacharacters inside tokens are not modelled — normalized tokens are
plain word characters). -/
def isSubstrList (needle : List Char) : List Char → Bool
  | [] => needle.isEmpty
  | c :: cs => needle.isPrefixOf (c :: cs) || isSubstrList needle cs

/-- String-level substring containment. -/
def strContains (hay needle : String) : Bool :=
  isSubstrList needle.data hay.data

/-- Model of `OMOPDatabase.exact_match` (`database.py:323`): equality on
`search_text_normalized`, optional domain filter, `LIMIT limit`. -/
def OMOPDatabase.exact_match (db : OMOPDatabase) (normalized_query : String)
    (domain_filter : Option String) (limit : Nat) : List ConceptRow :=
  (((db.concept_search.filter (fun r =>
      r.search_text_normalized = normalized_query &&
      domainOk domain_filter r.domain_id)).take limit).map
    SearchRow.toExactDict)

/-- Model of `OMOPDatabase.get_candidates_by_token_overlap`
(`database.py:374`): rows whose normalized text contains at least one
query token as a substring (`OR` of `LIKE` conditions), optional domain
filter, `LIMIT limit`.  The `min_overlap` parameter is accepted but,
as in the source, not used beyond the `OR` construction. -/
def OMOPDatabase.get_candidates_by_token_overlap (db : OMOPDatabase)
    (tokens : List String) (domain_filter : Option String)
    (_min_overlap : Nat := 1) (limit : Nat := 1000) : List ConceptRow :=
  if tokens.isEmpty then [] else
  (((db.concept_search.filter (fun r =>
      (tokens.any (fun t => strContains r.search_text_normalized t)) &&
      domainOk domain_filter r.domain_id)).take limit).map
    SearchRow.toCandDict)

/-- Model of `OMOPDatabase.get_maps_to` (`database.py:434`):
`WHERE source_concept_id = ? LIMIT 1`. -/
def OMOPDatabase.get_maps_to (db : OMOPDatabase) (concept_id : Int) :
    Option MapsToRow :=
  db.maps_to_lookup.find? (fun r => r.source_concept_id = concept_id)

/-- Model of `OMOPDatabase.get_concept_by_id` (`database.py:467`). -/
def OMOPDatabase.get_concept_by_id (db : OMOPDatabase) (concept_id : Int) :
    Option ConceptRow :=
  (db.concept.find? (fun c => c.concept_id = concept_id)).map OMOPConcept.toDict

/-- Keep-first deduplication modelling `SELECT DISTINCT` (row order in
SQL is unspecified; no claim depends on it). -/
def dedupRows : List MapsToRow → List MapsToRow
  | [] => []
  | r :: rs => r :: (dedupRows rs).filter (fun x => x ≠ r)

/-- Model of `OMOPDatabase._create_maps_to_lookup` (`database.py:185`):
join of `concept_relationship` rows having `relationship_id = 'Maps to'`
and no `invalid_reason` with target concepts that are standard (`'S'`)
and valid, projected to the denormalized row, `SELECT DISTINCT`. -/
def create_maps_to_lookup (rels : List RelationshipRow)
    (concepts : List OMOPConcept) : List MapsToRow :=
  dedupRows
    ((rels.filter (fun cr =>
        cr.relationship_id = "Maps to" && cr.invalid_reason = none)).flatMap
      (fun cr =>
        (concepts.filter (fun t =>
            t.concept_id = cr.concept_id_2 &&
            t.standard_concept = some "S" &&
            t.invalid_reason = none)).map
          (fun t =>
            { source_concept_id := cr.concept_id_1,
              standard_concept_id := t.concept_id,
              standard_concept_name := t.concept_name,
              standard_domain_id := t.domain_id,
              standard_vocabulary_id := t.vocabulary_id })))

/-! ## Search engine (`search.py`) -/

/-- Fuzzy-tier result dict (`search.py:266`). -/
structure FuzzyResult where
  concept : ConceptRow
  score : ℚ
  matched_text : String
deriving Repr, DecidableEq

/-- Semantic-tier result dict (`search.py:303`). -/
structure SemResult where
  concept : ConceptRow
  score : ℚ
  matched_text : String
deriving Repr, DecidableEq

/-- Stable insertion (descending by key `f`): an element is placed after
every earlier element with an equal or larger key, modelling Python's
stable `sort(reverse=True)`. -/
def insertDescBy {α : Type} (f : α → ℚ) (a : α) : List α → List α
  | [] => [a]
  | b :: bs => if f b < f a then a :: b :: bs else b :: insertDescBy f a bs

/-- Stable descending sort by key `f`. -/
def sortDescBy {α : Type} (f : α → ℚ) : List α → List α
  | [] => []
  | a :: rest => insertDescBy f a (sortDescBy f rest)

/-- Candidate text selection `c["search_text_normalized"] or
c["search_text"]` (`search.py:251`), with Python falsiness of `None`
and the empty string. -/
def candText (c : ConceptRow) : String :=
  match c.search_text_normalized with
  | some s => if s = "" then (c.search_text).getD "" else s
  | none => (c.search_text).getD ""

/-- Model of `ConceptSearcher._fuzzy_match` (`search.py:225`): token
overlap prefilter, RapidFuzz `process.extract` (scores every candidate
text with the oracle `wratio`, keeps scores at or above
`fuzzy_min_threshold`, returns the top `min(50, len(candidates))` in
descending order), then the final descending sort. -/
def fuzzyMatchFn (cfg : LookupConfig) (db : OMOPDatabase)
    (wratio : String → String → ℚ) (normalized_query : String)
    (tokens : List String) (domain_filter : Option String) :
    List FuzzyResult :=
  let candidates := db.get_candidates_by_token_overlap tokens domain_filter
    1 cfg.max_fuzzy_candidates
  if candidates.isEmpty then [] else
  let scored : List FuzzyResult := candidates.map (fun c =>
    { concept := c, score := wratio normalized_query (candText c),
      matched_text := candText c })
  let extracted := (sortDescBy (fun r => r.score)
    (scored.filter (fun r => cfg.fuzzy_min_threshold ≤ r.score))).take
      (min 50 candidates.length)
  sortDescBy (fun r => r.score) extracted

/-- Model of `ConceptSearcher._semantic_match` (`search.py:277`): ask
the semantic oracle for `(concept_id, similarity)` pairs, fetch each
concept, and drop concepts whose domain disagrees with a truthy domain
filter. -/
def semanticMatch (db : OMOPDatabase)
    (semSearch : String → Nat → List (Int × ℚ)) (query : String)
    (domain_filter : Option String) (top_k : Nat) : List SemResult :=
  (semSearch query top_k).filterMap (fun p =>
    match db.get_concept_by_id p.1 with
    | none => none
    | some c =>
      if domainOk domain_filter c.domain_id then
        some { concept := c, score := p.2, matched_text := c.concept_name }
      else none)

/-- Unified candidate entry of `_merge_and_rank`'s `candidates_by_id`
dictionary (`search.py:327`). -/
structure Cand where
  concept : ConceptRow
  fuzzy_score : ℚ
  semantic_score : ℚ
  match_type : MatchType
deriving Repr, DecidableEq

/-- Candidate entry built from a fuzzy result (`search.py:330`):
the fuzzy score normalized to `[0,1]` by dividing by 100. -/
def fuzzyCand (r : FuzzyResult) : Cand :=
  { concept := r.concept, fuzzy_score := r.score / 100,
    semantic_score := 0,
    match_type := if r.concept.source_type = some "name" then .fuzzy_name
      else .fuzzy_synonym }

/-- Candidate entry built from a semantic-only result (`search.py:345`). -/
def semCand (score : ℚ) (c : ConceptRow) : Cand :=
  { concept := c, fuzzy_score := 0, semantic_score := score,
    match_type := .semantic }

/-- Python `dict` assignment `d[k] = v` over an insertion-ordered
association list: replaces in place, or appends a new key at the end. -/
def setAssoc : List (Int × Cand) → Int → Cand → List (Int × Cand)
  | [], k, v => [(k, v)]
  | (k', v') :: rest, k, v =>
    if k' = k then (k', v) :: rest else (k', v') :: setAssoc rest k v

/-- Semantic-merge step (`search.py:340`): update `semantic_score` of an
existing candidate, or insert a fresh semantic-only candidate. -/
def updSemAssoc : List (Int × Cand) → Int → ℚ → ConceptRow →
    List (Int × Cand)
  | [], k, s, c => [(k, semCand s c)]
  | (k', v') :: rest, k, s, c =>
    if k' = k then (k', { v' with semantic_score := s }) :: rest
    else (k', v') :: updSemAssoc rest k s c

/-- Fusion base score (`search.py:356`): the max of the 0.7/0.3 blend
and each individual signal. -/
def fusedBase (fuzzy_score semantic_score : ℚ) : ℚ :=
  max (max (fuzzy_score * (7/10) + semantic_score * (3/10)) fuzzy_score)
    semantic_score

/-- Source-type boost (`search.py:369`): name matches over synonym (and
semantic rows, which carry no `source_type` key). -/
def sourceBoost (c : ConceptRow) : ℚ :=
  if c.source_type = some "name" then 1 else 98/100

/-- Standard-concept boost (`search.py:372`). -/
def standardBoost (c : ConceptRow) : ℚ :=
  if c.standard_concept = some "S" then 1 else 95/100

/-- Combined score of one candidate (`search.py:352`–`374`). -/
def combinedScore (cfg : LookupConfig) (c : Cand) : ℚ :=
  fusedBase c.fuzzy_score c.semantic_score
    * cfg.get_vocab_weight c.concept.vocabulary_id c.concept.domain_id
    * sourceBoost c.concept * standardBoost c.concept

/-- Candidate paired with its combined score (the dict after the
scoring pass added the `combined_score` key). -/
structure ScoredCand where
  cand : Cand
  combined_score : ℚ
deriving Repr, DecidableEq

/-- Model of `ConceptSearcher._merge_and_rank` (`search.py:311`): build
the insertion-ordered `candidates_by_id` dictionary from the fuzzy then
the semantic results, score every candidate, sort by combined score
descending (stably), and keep `top_k * 2`. -/
def merge_and_rank (cfg : LookupConfig) (fuzzy_results : List FuzzyResult)
    (semantic_results : List SemResult) (top_k : Nat) : List ScoredCand :=
  let d0 := fuzzy_results.foldl
    (fun acc r => setAssoc acc r.concept.concept_id (fuzzyCand r)) []
  let d1 := semantic_results.foldl
    (fun acc r => updSemAssoc acc r.concept.concept_id r.score r.concept) d0
  let scored := d1.map (fun p =>
    { cand := p.2, combined_score := combinedScore cfg p.2 })
  (sortDescBy (fun s => s.combined_score) scored).take (top_k * 2)

/-- Tie-break weight used by `_select_best_match` (`search.py:406`):
vocabulary preference, a 1.05 factor for standard concepts, a 1.02
factor for name rows. -/
def exactTieWeight (cfg : LookupConfig) (m : ConceptRow) : ℚ :=
  let w0 := cfg.get_vocab_weight m.vocabulary_id m.domain_id
  let w1 := if m.standard_concept = some "S" then w0 * (105/100) else w0
  if m.source_type = some "name" then w1 * (102/100) else w1

/-- Model of `ConceptSearcher._select_best_match` (`search.py:393`),
extended with `none` for the empty list (the caller guards
`if exact_results:`; `selectBestMatch_eq_none` shows `none` occurs
exactly on the empty list, so the guard and the `Option` agree). -/
def selectBestMatch (cfg : LookupConfig) :
    List ConceptRow → Option ConceptRow
  | [] => none
  | [m] => some m
  | m :: ms =>
    ((sortDescBy (fun p => p.1)
      ((m :: ms).map (fun x => (exactTieWeight cfg x, x)))).head?).map
        (fun p => p.2)

/-- Model of `ConceptSearcher._create_match` (`search.py:421`): resolves
the concept to a standard concept via `Maps To` and caps the confidence
at 1.0. -/
def createMatch (db : OMOPDatabase) (concept_data : ConceptRow)
    (confidence : ℚ) (match_type : MatchType) (matched_text : String) :
    ConceptMatch :=
  let resolved : ResolutionStatus × Option Int × Option String :=
    if concept_data.standard_concept = some "S" then
      (.already_standard, none, none)
    else
      match db.get_maps_to concept_data.concept_id with
      | some row =>
        (.mapped_to_standard, some row.standard_concept_id,
          some row.standard_concept_name)
      | none => (.no_mapping_available, none, none)
  { concept_id := concept_data.concept_id,
    concept_name := concept_data.concept_name,
    domain_id := concept_data.domain_id,
    vocabulary_id := concept_data.vocabulary_id,
    concept_class_id := (concept_data.concept_class_id).getD "",
    standard_concept := concept_data.standard_concept,
    confidence := min confidence 1,
    match_type := match_type,
    matched_text := matched_text,
    resolution_status := resolved.1,
    standard_concept_id := resolved.2.1,
    standard_concept_name := resolved.2.2,
    concept_code := concept_data.concept_code }

/-- Low-confidence warning text (`search.py:201`; the Python message
interpolates the two confidence numbers, which the model omits — no
claim depends on the numeric part of this message). -/
def lowConfidenceWarning : String :=
  "Best match confidence below threshold. Review candidates."

/-- Matched text on the fused path (`search.py:189`):
`c["concept"].get("search_text", c["concept"]["concept_name"])`. -/
def fusedMatchText (c : ConceptRow) : String :=
  (c.search_text).getD c.concept_name

/-- Ranking tail of `ConceptSearcher.search` (`search.py:163`–`215`,
decoded here as a helper over the already-computed semantic results and
warnings): fusion and ranking, the no-match result, slicing of
alternates `matches[1:top_k]`, and the threshold-based success flag. -/
def rankAndFinish (cfg : LookupConfig) (db : OMOPDatabase)
    (query normalized_query : String) (domain_filter : Option String)
    (top_k : Nat) (fuzzy_results : List FuzzyResult)
    (semantic_results : List SemResult) (warnings : List String) :
    LookupResult :=
  let merged := merge_and_rank cfg fuzzy_results semantic_results top_k
  match merged with
  | [] =>
    { query := query, normalized_query := normalized_query,
      domain_filter := domain_filter, success := false,
      best_match := none, candidates := [], search_time_ms := 0,
      warnings := warnings ++ ["No matches found"] }
  | c0 :: crest =>
    let matchList := (c0 :: crest).map (fun c =>
      createMatch db c.cand.concept c.combined_score c.cand.match_type
        (fusedMatchText c.cand.concept))
    let best := createMatch db c0.cand.concept c0.combined_score
      c0.cand.match_type (fusedMatchText c0.cand.concept)
    let finalCandidates :=
      if 1 < matchList.length then (matchList.drop 1).take (top_k - 1) else []
    let success := cfg.confidence_threshold ≤ best.confidence
    let warnings2 :=
      if success then warnings else warnings ++ [lowConfidenceWarning]
    { query := query, normalized_query := normalized_query,
      domain_filter := domain_filter, success := success,
      best_match := some best, candidates := finalCandidates,
      search_time_ms := 0, warnings := warnings2 }

/-- Tier 3 of `ConceptSearcher.search` (`search.py:146`–`161`): run
semantic search when enabled and available, recording the
capability-gap warning otherwise, then hand off to `rankAndFinish`. -/
def searchFused (cfg : LookupConfig) (db : OMOPDatabase)
    (enable_semantic sem_available : Bool)
    (semSearch : String → Nat → List (Int × ℚ))
    (query normalized_query : String) (domain_filter : Option String)
    (top_k : Nat) (fuzzy_results : List FuzzyResult)
    (warnings0 : List String) : LookupResult :=
  let semPair : List SemResult × List String :=
    if enable_semantic then
      if sem_available then
        (semanticMatch db semSearch normalized_query domain_filter
          (top_k * 2), warnings0)
      else (([] : List SemResult),
        warnings0 ++ ["Semantic search index not built"])
    else (([] : List SemResult), warnings0)
  rankAndFinish cfg db query normalized_query domain_filter top_k
    fuzzy_results semPair.1 semPair.2

/-- Model of `ConceptSearcher.search` (`search.py:69`): normalize, exact
match with vocabulary-preference tie-break (early exit at confidence
1.0), fuzzy match (early exit at or above `fuzzy_high_confidence`),
then the fused path `searchFused`.  The external oracles are
`sem_available` (the semantic index loaded and built), `semSearch`
(its neighbor search) and `wratio` (RapidFuzz `fuzz.WRatio`). -/
def searchFn (cfg : LookupConfig) (db : OMOPDatabase)
    (enable_semantic sem_available : Bool)
    (semSearch : String → Nat → List (Int × ℚ))
    (wratio : String → String → ℚ) (query : String)
    (domain_filter : Option String := none) (top_k : Nat := 5) :
    LookupResult :=
  let normalized_query := normalize_text query
  let tokens := tokenize normalized_query
  match selectBestMatch cfg (db.exact_match normalized_query domain_filter 10) with
  | some best =>
    { query := query, normalized_query := normalized_query,
      domain_filter := domain_filter, success := true,
      best_match := some (createMatch db best 1
        (if best.source_type = some "name" then .exact_name
          else .exact_synonym)
        ((best.search_text).getD "")),
      candidates := [], search_time_ms := 0, warnings := [] }
  | none =>
    let fuzzy_results := fuzzyMatchFn cfg db wratio normalized_query
      tokens domain_filter
    match fuzzy_results with
    | best_fuzzy :: _ =>
      if cfg.fuzzy_high_confidence ≤ best_fuzzy.score then
        { query := query, normalized_query := normalized_query,
          domain_filter := domain_filter, success := true,
          best_match := some (createMatch db best_fuzzy.concept
            (best_fuzzy.score / 100)
            (if best_fuzzy.concept.source_type = some "name" then
              .fuzzy_name else .fuzzy_synonym)
            ((best_fuzzy.concept.search_text).getD "")),
          candidates := [], search_time_ms := 0, warnings := [] }
      else
        searchFused cfg db enable_semantic sem_available semSearch query
          normalized_query domain_filter top_k fuzzy_results []
    | [] =>
      searchFused cfg db enable_semantic sem_available semSearch query
        normalized_query domain_filter top_k [] []

/-! ## Public API (`__init__.py`) -/

/-- Model of `lookup` (`__init__.py:113`): Python defaults
`domain=None`, `top_k=10`, `enable_semantic=False` ("Disabled by
default for speed").  The searcher-singleton caching of `get_searcher`
is abstracted: each call is modelled with the flags it passes. -/
def lookup (cfg : LookupConfig) (db : OMOPDatabase) (sem_available : Bool)
    (semSearch : String → Nat → List (Int × ℚ))
    (wratio : String → String → ℚ) (query : String)
    (domain : Option String := none) (top_k : Nat := 10)
    (enable_semantic : Bool := false) : LookupResult :=
  searchFn cfg db enable_semantic sem_available semSearch wratio query
    domain top_k

/-- Model of the core loop of `batch_lookup` (`__init__.py:155`): the
file parsing that produces the query list is I/O outside the embedding;
each query goes through `searcher.search(query, domain_filter=domain)`
(so `top_k` takes `search`'s default 5), results and the success count
are accumulated in order.  Python default `enable_semantic=True`. -/
def batch_lookup (cfg : LookupConfig) (db : OMOPDatabase)
    (sem_available : Bool) (semSearch : String → Nat → List (Int × ℚ))
    (wratio : String → String → ℚ) (queries : List String)
    (domain : Option String := none) (enable_semantic : Bool := true) :
    BatchLookupResult :=
  let folded := queries.foldl
    (fun (acc : List LookupResult × Nat) q =>
      let r := searchFn cfg db enable_semantic sem_available semSearch
        wratio q domain
      (acc.1 ++ [r], acc.2 + (if r.success then 1 else 0)))
    ([], 0)
  { results := folded.1, total_queries := queries.length,
    successful_queries := folded.2, total_time_ms := 0 }

/-! ## Concrete fixtures used by witnesses and counterexamples -/

/-- Empty (but initialized) store. -/
def dbEmpty : OMOPDatabase := { concept := [], concept_search := [], maps_to_lookup := [] }

/-- Fuzzy oracle returning 0 everywhere. -/
def wrZero : String → String → ℚ := fun _ _ => 0

/-- Fuzzy oracle returning 95 everywhere. -/
def wr95 : String → String → ℚ := fun _ _ => 95

/-- Semantic oracle returning no neighbors. -/
def semNone : String → Nat → List (Int × ℚ) := fun _ _ => []

/-- Search row: concept 1 "Myocardial infarction", Condition, SNOMED,
standard, name row. -/
def rowMI : SearchRow :=
  { concept_id := 1, search_text := "Myocardial infarction",
    source_type := "name", concept_name := "Myocardial infarction",
    domain_id := "Condition", vocabulary_id := "SNOMED",
    concept_class_id := "Clinical Finding", standard_concept := some "S",
    concept_code := some "22298006",
    search_text_normalized := "myocardial infarction" }

/-- Store holding the single row `rowMI`. -/
def dbMI : OMOPDatabase :=
  { concept := [], concept_search := [rowMI], maps_to_lookup := [] }

example :
    (searchFn DEFAULT_CONFIG dbEmpty false false semNone wrZero "xyz").success
      = false := by decide
example :
    (searchFn DEFAULT_CONFIG dbMI false false semNone wrZero
      "Myocardial Infarction!").success = true := by decide
example :
    ((searchFn DEFAULT_CONFIG dbMI false false semNone wrZero
      "Myocardial Infarction!").best_match.map (fun m => m.confidence))
      = some 1 := by decide

/-! ## Sorting lemmas -/

theorem mem_insertDescBy {α : Type} (f : α → ℚ) (a x : α) :
    ∀ l : List α, x ∈ insertDescBy f a l ↔ x = a ∨ x ∈ l := by
  intro l
  induction l with
  | nil => simp [insertDescBy]
  | cons b bs ih =>
    by_cases h : f b < f a
    · simp [insertDescBy, h, List.mem_cons]
    · simp [insertDescBy, h, List.mem_cons, ih]
      tauto

theorem mem_sortDescBy {α : Type} (f : α → ℚ) (x : α) :
    ∀ l : List α, x ∈ sortDescBy f l ↔ x ∈ l := by
  intro l
  induction l with
  | nil => simp [sortDescBy]
  | cons a rest ih =>
    simp [sortDescBy, mem_insertDescBy, ih, List.mem_cons]

theorem insertDescBy_ne_nil {α : Type} (f : α → ℚ) (a : α) (l : List α) :
    insertDescBy f a l ≠ [] := by
  cases l with
  | nil => simp [insertDescBy]
  | cons b bs =>
    by_cases h : f b < f a <;> simp [insertDescBy, h]

theorem sortDescBy_eq_nil {α : Type} (f : α → ℚ) (l : List α) :
    sortDescBy f l = [] ↔ l = [] := by
  cases l with
  | nil => simp [sortDescBy]
  | cons a rest =>
    simp [sortDescBy]
    exact insertDescBy_ne_nil f a _

/-! ## Lemmas about `selectBestMatch` -/

theorem selectBestMatch_eq_none (cfg : LookupConfig) (l : List ConceptRow) :
    selectBestMatch cfg l = none ↔ l = [] := by
  match l with
  | [] => simp [selectBestMatch]
  | [m] => simp [selectBestMatch]
  | m :: m' :: ms =>
    simp only [selectBestMatch]
    constructor
    · intro h
      rcases ho : (sortDescBy (fun p => p.1)
          ((m :: m' :: ms).map (fun x => (exactTieWeight cfg x, x)))).head? with _ | p
      · exfalso
        rw [List.head?_eq_none_iff] at ho
        have := (sortDescBy_eq_nil (fun p => p.1)
          ((m :: m' :: ms).map (fun x => (exactTieWeight cfg x, x)))).mp ho
        simp at this
      · rw [ho] at h
        simp at h
    · intro h
      exact absurd h (by simp)

theorem selectBestMatch_mem (cfg : LookupConfig) (l : List ConceptRow)
    (b : ConceptRow) (h : selectBestMatch cfg l = some b) : b ∈ l := by
  match l with
  | [] => simp [selectBestMatch] at h
  | [m] =>
    simp [selectBestMatch] at h
    simp [h]
  | m :: m' :: ms =>
    simp only [selectBestMatch] at h
    rcases ho : (sortDescBy (fun p => p.1)
        ((m :: m' :: ms).map (fun x => (exactTieWeight cfg x, x)))).head? with _ | p
    · rw [ho] at h; simp at h
    · rw [ho] at h
      simp at h
      have hp : p ∈ sortDescBy (fun p => p.1)
          ((m :: m' :: ms).map (fun x => (exactTieWeight cfg x, x))) :=
        List.mem_of_mem_head? ho
      rw [mem_sortDescBy] at hp
      rcases List.mem_map.mp hp with ⟨x, hx, hxp⟩
      subst h
      rw [← hxp]
      exact hx

/-! ## Membership lemmas for the query tiers -/

theorem exact_match_mem (db : OMOPDatabase) (nq : String)
    (df : Option String) (lim : Nat) (r : ConceptRow)
    (h : r ∈ db.exact_match nq df lim) :
    ∃ s ∈ db.concept_search, r = s.toExactDict ∧
      s.search_text_normalized = nq ∧ domainOk df s.domain_id = true := by
  simp only [OMOPDatabase.exact_match] at h
  rcases List.mem_map.mp h with ⟨s, hs, hrs⟩
  have hs' := List.mem_of_mem_take hs
  have hfil := List.mem_filter.mp hs'
  refine ⟨s, hfil.1, hrs.symm, ?_, ?_⟩
  · have := hfil.2
    simp at this
    exact this.1
  · have := hfil.2
    simp at this
    exact this.2

theorem exact_match_ne_nil (db : OMOPDatabase) (nq : String)
    (df : Option String) (lim : Nat) (hlim : 0 < lim)
    (s : SearchRow) (hs : s ∈ db.concept_search)
    (hnorm : s.search_text_normalized = nq)
    (hdom : domainOk df s.domain_id = true) :
    db.exact_match nq df lim ≠ [] := by
  simp only [OMOPDatabase.exact_match]
  intro hc
  rw [List.map_eq_nil_iff, List.take_eq_nil_iff] at hc
  rcases hc with hc | hc
  · omega
  · rw [List.filter_eq_nil_iff] at hc
    exact hc s hs (by simp [hnorm, hdom])

theorem candidates_mem (db : OMOPDatabase) (tokens : List String)
    (df : Option String) (mo lim : Nat) (r : ConceptRow)
    (h : r ∈ db.get_candidates_by_token_overlap tokens df mo lim) :
    ∃ s ∈ db.concept_search, r = s.toCandDict ∧
      domainOk df s.domain_id = true := by
  simp only [OMOPDatabase.get_candidates_by_token_overlap] at h
  by_cases ht : tokens.isEmpty
  · simp [ht] at h
  · simp only [ht, if_false, Bool.false_eq_true] at h
    rcases List.mem_map.mp h with ⟨s, hs, hrs⟩
    have hs' := List.mem_of_mem_take hs
    have hfil := List.mem_filter.mp hs'
    refine ⟨s, hfil.1, hrs.symm, ?_⟩
    have := hfil.2
    simp at this
    exact this.2

theorem fuzzyMatchFn_mem (cfg : LookupConfig) (db : OMOPDatabase)
    (wratio : String → String → ℚ) (nq : String) (tokens : List String)
    (df : Option String) (r : FuzzyResult)
    (h : r ∈ fuzzyMatchFn cfg db wratio nq tokens df) :
    ∃ c ∈ db.get_candidates_by_token_overlap tokens df 1
        cfg.max_fuzzy_candidates,
      r.concept = c ∧ r.score = wratio nq (candText c) ∧
        cfg.fuzzy_min_threshold ≤ r.score := by
  simp only [fuzzyMatchFn] at h
  by_cases hc : (db.get_candidates_by_token_overlap tokens df 1
      cfg.max_fuzzy_candidates).isEmpty
  · simp [hc] at h
  · simp only [hc, if_false, Bool.false_eq_true] at h
    rw [mem_sortDescBy] at h
    have h2 := List.mem_of_mem_take h
    rw [mem_sortDescBy] at h2
    have h3 := List.mem_filter.mp h2
    rcases List.mem_map.mp h3.1 with ⟨c, hcm, hrc⟩
    refine ⟨c, hcm, ?_, ?_, ?_⟩
    · rw [← hrc]
    · rw [← hrc]
    · have := h3.2
      simp at this
      exact this

theorem semanticMatch_mem (db : OMOPDatabase)
    (semSearch : String → Nat → List (Int × ℚ)) (q : String)
    (df : Option String) (k : Nat) (r : SemResult)
    (h : r ∈ semanticMatch db semSearch q df k) :
    ∃ p ∈ semSearch q k, ∃ c, db.get_concept_by_id p.1 = some c ∧
      domainOk df c.domain_id = true ∧
      r = { concept := c, score := p.2, matched_text := c.concept_name } := by
  simp only [semanticMatch] at h
  rcases List.mem_filterMap.mp h with ⟨p, hp, hpr⟩
  refine ⟨p, hp, ?_⟩
  rcases hid : db.get_concept_by_id p.1 with _ | c
  · rw [hid] at hpr; simp at hpr
  · rw [hid] at hpr
    by_cases hdom : domainOk df c.domain_id
    · simp [hdom] at hpr
      exact ⟨c, rfl, hdom, hpr.symm⟩
    · simp [hdom] at hpr

/-! ## Provenance of merged candidates -/

/-- Provenance invariant of each value in the `candidates_by_id`
dictionary: the fuzzy component is a fuzzy result's normalized score (or
0 for semantic-only entries, whose concept then comes from the semantic
results), and the semantic component is a semantic result's similarity
(or 0 when absent). -/
def candProv (fz : List FuzzyResult) (sem : List SemResult) (v : Cand) :
    Prop :=
  ((∃ r ∈ fz, v.concept = r.concept ∧ v.fuzzy_score = r.score / 100) ∨
    (v.fuzzy_score = 0 ∧ ∃ r ∈ sem, v.concept = r.concept)) ∧
  ((∃ r ∈ sem, v.semantic_score = r.score) ∨ v.semantic_score = 0)

theorem setAssoc_forall {P : Cand → Prop} (k : Int) (v : Cand)
    (hv : P v) : ∀ acc, (∀ p ∈ acc, P p.2) →
    ∀ p ∈ setAssoc acc k v, P p.2 := by
  intro acc
  induction acc with
  | nil =>
    intro _ p hp
    simp [setAssoc] at hp
    simp [hp, hv]
  | cons q rest ih =>
    intro hacc p hp
    rcases q with ⟨k', v'⟩
    by_cases hk : k' = k
    · simp [setAssoc, hk] at hp
      rcases hp with hp | hp
      · simp [hp, hv]
      · exact hacc p (List.mem_cons_of_mem _ hp)
    · simp only [setAssoc, if_neg hk] at hp
      rcases List.mem_cons.mp hp with hp | hp
      · subst hp
        exact hacc (k', v') (List.mem_cons_self _ _)
      · exact ih (fun x hx => hacc x (List.mem_cons_of_mem _ hx)) p hp

theorem updSemAssoc_forall {P : Cand → Prop} (k : Int) (s : ℚ)
    (c : ConceptRow) (hnew : P (semCand s c))
    (hupd : ∀ v, P v → P { v with semantic_score := s }) :
    ∀ acc, (∀ p ∈ acc, P p.2) →
    ∀ p ∈ updSemAssoc acc k s c, P p.2 := by
  intro acc
  induction acc with
  | nil =>
    intro _ p hp
    simp [updSemAssoc] at hp
    simp [hp, hnew]
  | cons q rest ih =>
    intro hacc p hp
    rcases q with ⟨k', v'⟩
    by_cases hk : k' = k
    · simp [updSemAssoc, hk] at hp
      rcases hp with hp | hp
      · have := hacc (k', v') (List.mem_cons_self _ _)
        simp at this
        simp [hp]
        exact hupd v' this
      · exact hacc p (List.mem_cons_of_mem _ hp)
    · simp only [updSemAssoc, if_neg hk] at hp
      rcases List.mem_cons.mp hp with hp | hp
      · subst hp
        exact hacc (k', v') (List.mem_cons_self _ _)
      · exact ih (fun x hx => hacc x (List.mem_cons_of_mem _ hx)) p hp

theorem foldlFuzzy_forall {P : Cand → Prop} (fz0 : List FuzzyResult)
    (hP : ∀ r ∈ fz0, P (fuzzyCand r)) :
    ∀ l : List FuzzyResult, (∀ r ∈ l, r ∈ fz0) →
    ∀ acc, (∀ p ∈ acc, P p.2) →
    ∀ p ∈ l.foldl
      (fun acc r => setAssoc acc r.concept.concept_id (fuzzyCand r)) acc,
      P p.2 := by
  intro l
  induction l with
  | nil =>
    intro _ acc hacc p hp
    exact hacc p hp
  | cons r rest ih =>
    intro hsub acc hacc p hp
    simp only [List.foldl_cons] at hp
    exact ih (fun x hx => hsub x (List.mem_cons_of_mem _ hx))
      (setAssoc acc r.concept.concept_id (fuzzyCand r))
      (setAssoc_forall _ _ (hP r (hsub r (List.mem_cons_self _ _))) acc hacc)
      p hp

theorem foldlSem_forall {P : Cand → Prop} (sem0 : List SemResult)
    (hnew : ∀ r ∈ sem0, P (semCand r.score r.concept))
    (hupd : ∀ r ∈ sem0, ∀ v, P v → P { v with semantic_score := r.score }) :
    ∀ l : List SemResult, (∀ r ∈ l, r ∈ sem0) →
    ∀ acc, (∀ p ∈ acc, P p.2) →
    ∀ p ∈ l.foldl
      (fun acc r => updSemAssoc acc r.concept.concept_id r.score r.concept)
      acc, P p.2 := by
  intro l
  induction l with
  | nil =>
    intro _ acc hacc p hp
    exact hacc p hp
  | cons r rest ih =>
    intro hsub acc hacc p hp
    simp only [List.foldl_cons] at hp
    exact ih (fun x hx => hsub x (List.mem_cons_of_mem _ hx))
      (updSemAssoc acc r.concept.concept_id r.score r.concept)
      (updSemAssoc_forall _ _ _ (hnew r (hsub r (List.mem_cons_self _ _)))
        (hupd r (hsub r (List.mem_cons_self _ _))) acc hacc)
      p hp

theorem merge_and_rank_prov (cfg : LookupConfig)
    (fz : List FuzzyResult) (sem : List SemResult) (k : Nat) :
    ∀ sc ∈ merge_and_rank cfg fz sem k,
      sc.combined_score = combinedScore cfg sc.cand ∧
        candProv fz sem sc.cand := by
  intro sc hsc
  simp only [merge_and_rank] at hsc
  have h1 := List.mem_of_mem_take hsc
  rw [mem_sortDescBy] at h1
  rcases List.mem_map.mp h1 with ⟨p, hp, hps⟩
  have hprov : candProv fz sem p.2 := by
    refine foldlSem_forall sem ?_ ?_ sem (fun r hr => hr) _ ?_ p hp
    · intro r hr
      exact ⟨Or.inr ⟨rfl, r, hr, rfl⟩, Or.inl ⟨r, hr, rfl⟩⟩
    · intro r hr v hv
      exact ⟨hv.1, Or.inl ⟨r, hr, rfl⟩⟩
    · refine foldlFuzzy_forall fz ?_ fz (fun r hr => hr) [] (by simp)
      intro r hr
      exact ⟨Or.inl ⟨r, hr, rfl, rfl⟩, Or.inr rfl⟩
  rw [← hps]
  exact ⟨rfl, hprov⟩

/-! ## Branch analysis of the orchestrator -/

theorem merge_and_rank_nil (cfg : LookupConfig) (k : Nat) :
    merge_and_rank cfg [] [] k = [] := by
  simp [merge_and_rank, sortDescBy]

theorem searchFused_cases (cfg : LookupConfig) (db : OMOPDatabase)
    (es sa : Bool) (semSearch : String → Nat → List (Int × ℚ))
    (q nq : String) (df : Option String) (k : Nat)
    (fz : List FuzzyResult) (w0 : List String) :
    searchFused cfg db es sa semSearch q nq df k fz w0 =
      rankAndFinish cfg db q nq df k fz
        (semanticMatch db semSearch nq df (k * 2)) w0 ∨
    ∃ w, searchFused cfg db es sa semSearch q nq df k fz w0 =
      rankAndFinish cfg db q nq df k fz [] w := by
  cases es
  · exact Or.inr ⟨w0, by simp [searchFused]⟩
  · cases sa
    · exact Or.inr ⟨w0 ++ ["Semantic search index not built"],
        by simp [searchFused]⟩
    · exact Or.inl (by simp [searchFused])

theorem rankAndFinish_nil (cfg : LookupConfig) (db : OMOPDatabase)
    (q nq : String) (df : Option String) (k : Nat)
    (fz : List FuzzyResult) (semR : List SemResult) (w : List String)
    (hm : merge_and_rank cfg fz semR k = []) :
    rankAndFinish cfg db q nq df k fz semR w =
      { query := q, normalized_query := nq, domain_filter := df,
        success := false, best_match := none, candidates := [],
        search_time_ms := 0, warnings := w ++ ["No matches found"] } := by
  simp only [rankAndFinish]
  rw [hm]

theorem rankAndFinish_prov (cfg : LookupConfig) (db : OMOPDatabase)
    (q nq : String) (df : Option String) (k : Nat)
    (fz : List FuzzyResult) (semR : List SemResult) (w : List String)
    (m : ConceptMatch)
    (h : (rankAndFinish cfg db q nq df k fz semR w).best_match = some m ∨
      m ∈ (rankAndFinish cfg db q nq df k fz semR w).candidates) :
    ∃ sc ∈ merge_and_rank cfg fz semR k,
      m = createMatch db sc.cand.concept sc.combined_score
        sc.cand.match_type (fusedMatchText sc.cand.concept) := by
  simp only [rankAndFinish] at h
  rcases hm : merge_and_rank cfg fz semR k with _ | ⟨c0, crest⟩
  · rw [hm] at h
    simp at h
  · rw [hm] at h
    simp only [List.map_cons] at h
    rcases h with h | h
    · simp at h
      exact ⟨c0, List.mem_cons_self _ _, h.symm⟩
    · split at h
      · have h1 := List.mem_of_mem_take h
        have h2 := List.mem_of_mem_drop h1
        rcases List.mem_cons.mp h2 with h3 | h3
        · exact ⟨c0, List.mem_cons_self _ _, h3⟩
        · rcases List.mem_map.mp h3 with ⟨sc, hsc, hscm⟩
          exact ⟨sc, List.mem_cons_of_mem _ hsc, hscm.symm⟩
      · simp at h

theorem searchFn_match_prov (cfg : LookupConfig) (db : OMOPDatabase)
    (es sa : Bool) (semSearch : String → Nat → List (Int × ℚ))
    (wratio : String → String → ℚ) (q : String) (df : Option String)
    (k : Nat) (m : ConceptMatch)
    (h : (searchFn cfg db es sa semSearch wratio q df k).best_match = some m ∨
      m ∈ (searchFn cfg db es sa semSearch wratio q df k).candidates) :
    (∃ b ∈ db.exact_match (normalize_text q) df 10,
      m = createMatch db b 1
        (if b.source_type = some "name" then .exact_name else .exact_synonym)
        ((b.search_text).getD "")) ∨
    (∃ bf ∈ fuzzyMatchFn cfg db wratio (normalize_text q)
        (tokenize (normalize_text q)) df,
      m = createMatch db bf.concept (bf.score / 100)
        (if bf.concept.source_type = some "name" then .fuzzy_name
          else .fuzzy_synonym)
        ((bf.concept.search_text).getD "")) ∨
    (∃ semR, (semR = semanticMatch db semSearch (normalize_text q) df (k * 2)
        ∨ semR = []) ∧
      ∃ sc ∈ merge_and_rank cfg
          (fuzzyMatchFn cfg db wratio (normalize_text q)
            (tokenize (normalize_text q)) df) semR k,
        m = createMatch db sc.cand.concept sc.combined_score
          sc.cand.match_type (fusedMatchText sc.cand.concept)) := by
  simp only [searchFn] at h
  rcases hsel : selectBestMatch cfg (db.exact_match (normalize_text q) df 10)
    with _ | b
  · rw [hsel] at h
    simp only [] at h
    rcases hfz : fuzzyMatchFn cfg db wratio (normalize_text q)
        (tokenize (normalize_text q)) df with _ | ⟨bf, rest⟩
    · rw [hfz] at h
      simp only [] at h
      rcases searchFused_cases cfg db es sa semSearch q (normalize_text q)
          df k [] [] with hc | ⟨w, hc⟩
      · rw [hc] at h
        rcases rankAndFinish_prov _ _ _ _ _ _ _ _ _ _ h with ⟨sc, hsc, hm⟩
        exact Or.inr (Or.inr ⟨semanticMatch db semSearch (normalize_text q)
          df (k * 2), Or.inl rfl, sc, hsc, hm⟩)
      · rw [hc] at h
        rcases rankAndFinish_prov _ _ _ _ _ _ _ _ _ _ h with ⟨sc, hsc, hm⟩
        exact Or.inr (Or.inr ⟨[], Or.inr rfl, sc, hsc, hm⟩)
    · rw [hfz] at h
      simp only [] at h
      by_cases hhigh : cfg.fuzzy_high_confidence ≤ bf.score
      · rw [if_pos hhigh] at h
        simp at h
        exact Or.inr (Or.inl ⟨bf, List.mem_cons_self _ _, h.symm⟩)
      · rw [if_neg hhigh] at h
        rcases searchFused_cases cfg db es sa semSearch q (normalize_text q)
            df k (bf :: rest) [] with hc | ⟨w, hc⟩
        · rw [hc] at h
          rcases rankAndFinish_prov _ _ _ _ _ _ _ _ _ _ h with ⟨sc, hsc, hm⟩
          exact Or.inr (Or.inr ⟨semanticMatch db semSearch (normalize_text q)
            df (k * 2), Or.inl rfl, sc, hsc, hm⟩)
        · rw [hc] at h
          rcases rankAndFinish_prov _ _ _ _ _ _ _ _ _ _ h with ⟨sc, hsc, hm⟩
          exact Or.inr (Or.inr ⟨[], Or.inr rfl, sc, hsc, hm⟩)
  · rw [hsel] at h
    simp at h
    exact Or.inl ⟨b, selectBestMatch_mem cfg _ b hsel, h.symm⟩

/-! ## Idempotence of the normalizer -/

theorem nfkdChar_of_word (c : Char) (h : isWordChar c = true) :
    nfkdChar c = [c] := by
  have hall : ∀ p ∈ nfkdTable, isWordChar p.1 = false := by decide
  unfold nfkdChar
  rw [List.find?_eq_none.mpr]
  · rfl
  · intro p hp
    simp only [decide_eq_true_eq]
    intro hpc
    rw [← hpc] at h
    rw [hall p hp] at h
    exact Bool.false_ne_true h

theorem pyLower_idem (c : Char) : pyLower (pyLower c) = pyLower c := by
  rcases hf : lowerTable.find? (fun p => p.1 = c) with _ | p
  · have h1 : pyLower c = c := by
      unfold pyLower
      rw [hf]
      rfl
    rw [h1]
    exact h1
  · have hmem := List.mem_of_find?_eq_some hf
    have h1 : pyLower c = p.2 := by
      unfold pyLower
      rw [hf]
      rfl
    rw [h1]
    have hall : ∀ q ∈ lowerTable, pyLower q.2 = q.2 := by decide
    exact hall p hmem

theorem word_not_space (c : Char) (h : isWordChar c = true) :
    isPySpace c = false := by
  by_contra hs
  rw [Bool.not_eq_false] at hs
  simp only [isPySpace, Bool.or_eq_true, decide_eq_true_eq] at hs
  rcases hs with ((((h1 | h1) | h1) | h1) | h1) | h1 <;>
    (subst h1; exact absurd h (by decide))

theorem word_toNat_lt (c : Char) (h : isWordChar c = true) :
    c.toNat < 0x300 := by
  simp only [isWordChar, Bool.or_eq_true, Bool.and_eq_true,
    decide_eq_true_eq] at h
  rcases h with ((((((((h | h) | h) | h) | h) | h) | h) | h) | h)
  · omega
  · omega
  · omega
  all_goals (subst h; decide)

theorem word_not_comb (c : Char) (h : isWordChar c = true) :
    combiningMark c = false := by
  have hlt := word_toNat_lt c h
  have hn : ¬ (0x300 ≤ c.toNat) := by omega
  simp [combiningMark, hn]

theorem mem_normalizeChars (cs : List Char) (c : Char)
    (h : c ∈ normalizeChars cs) :
    (isWordChar c = true ∧ ∃ d, c = pyLower d) ∨ isPySpace c = true := by
  simp only [normalizeChars] at h
  rcases List.mem_map.mp h with ⟨e, he, hec⟩
  have he2 := List.mem_filter.mp he
  rcases List.mem_map.mp he2.1 with ⟨d, _, hd⟩
  by_cases hcond : isWordChar e || isPySpace e
  · rw [if_pos hcond] at hec
    subst hec
    rcases Bool.or_eq_true .. ▸ hcond with hw | hsp
    · exact Or.inl ⟨hw, d, hd.symm⟩
    · exact Or.inr hsp
  · rw [if_neg hcond] at hec
    subst hec
    exact Or.inr (by decide)

theorem splitWsAux_chars : ∀ (cs acc : List Char),
    (∀ c ∈ acc, isPySpace c = false) →
    ∀ w ∈ splitWsAux cs acc, ∀ c ∈ w,
      (c ∈ cs ∨ c ∈ acc) ∧ isPySpace c = false := by
  intro cs
  induction cs with
  | nil =>
    intro acc hacc w hw c hc
    simp only [splitWsAux] at hw
    by_cases he : acc.isEmpty
    · simp [he] at hw
    · simp [he] at hw
      subst hw
      rw [List.mem_reverse] at hc
      exact ⟨Or.inr hc, hacc c hc⟩
  | cons c0 cs0 ih =>
    intro acc hacc w hw c hc
    simp only [splitWsAux] at hw
    by_cases hsp : isPySpace c0
    · rw [if_pos hsp] at hw
      by_cases he : acc.isEmpty
      · simp only [he, if_true] at hw
        have := ih [] (by simp) w hw c hc
        rcases this with ⟨hm | hm, hns⟩
        · exact ⟨Or.inl (List.mem_cons_of_mem _ hm), hns⟩
        · simp at hm
      · simp only [he, if_false, Bool.false_eq_true] at hw
        rcases List.mem_cons.mp hw with hw | hw
        · subst hw
          rw [List.mem_reverse] at hc
          exact ⟨Or.inr hc, hacc c hc⟩
        · have := ih [] (by simp) w hw c hc
          rcases this with ⟨hm | hm, hns⟩
          · exact ⟨Or.inl (List.mem_cons_of_mem _ hm), hns⟩
          · simp at hm
    · rw [if_neg hsp] at hw
      · have := ih (c0 :: acc)
          (by
            intro x hx
            rcases List.mem_cons.mp hx with hx | hx
            · subst hx
              exact Bool.eq_false_iff.mpr hsp
            · exact hacc x hx)
          w hw c hc
        rcases this with ⟨hm | hm, hns⟩
        · exact ⟨Or.inl (List.mem_cons_of_mem _ hm), hns⟩
        · rcases List.mem_cons.mp hm with hm | hm
          · exact ⟨Or.inl (hm ▸ List.mem_cons_self _ _), hns⟩
          · exact ⟨Or.inr hm, hns⟩

theorem splitWsAux_ne_nil : ∀ (cs acc : List Char),
    ∀ w ∈ splitWsAux cs acc, w ≠ [] := by
  intro cs
  induction cs with
  | nil =>
    intro acc w hw
    simp only [splitWsAux] at hw
    by_cases he : acc.isEmpty
    · simp [he] at hw
    · simp [he] at hw
      subst hw
      simp only [ne_eq, List.reverse_eq_nil_iff]
      rw [List.isEmpty_iff] at he
      exact he
  | cons c0 cs0 ih =>
    intro acc w hw
    simp only [splitWsAux] at hw
    by_cases hsp : isPySpace c0
    · rw [if_pos hsp] at hw
      by_cases he : acc.isEmpty
      · simp only [he, if_true] at hw
        exact ih [] w hw
      · simp only [he, if_false, Bool.false_eq_true] at hw
        rcases List.mem_cons.mp hw with hw | hw
        · subst hw
          simp only [ne_eq, List.reverse_eq_nil_iff]
          rw [List.isEmpty_iff] at he
          exact he
        · exact ih [] w hw
    · rw [if_neg hsp] at hw
      exact ih (c0 :: acc) w hw

theorem splitWsAux_append (w : List Char) :
    ∀ (acc cs : List Char), (∀ c ∈ w, isPySpace c = false) →
    splitWsAux (w ++ cs) acc = splitWsAux cs (w.reverse ++ acc) := by
  induction w with
  | nil => intro acc cs _; simp
  | cons c w' ih =>
    intro acc cs hns
    have hc : isPySpace c = false := hns c (List.mem_cons_self _ _)
    simp only [List.cons_append, splitWsAux, hc, if_false,
      Bool.false_eq_true]
    rw [show w'.append cs = w' ++ cs from rfl]
    rw [ih (c :: acc) cs (fun x hx => hns x (List.mem_cons_of_mem _ hx))]
    simp

theorem splitWs_joinSpace : ∀ ws : List (List Char),
    (∀ w ∈ ws, w ≠ []) →
    (∀ w ∈ ws, ∀ c ∈ w, isPySpace c = false) →
    splitWsChars (joinSpace ws) = ws := by
  intro ws
  induction ws with
  | nil => intro _ _; rfl
  | cons w ws' ih =>
    intro h1 h2
    have hne := h1 w (List.mem_cons_self _ _)
    have hemp : (w.reverse).isEmpty = false :=
      List.isEmpty_eq_false.mpr (by
        simp only [ne_eq, List.reverse_eq_nil_iff]
        exact hne)
    rcases ws' with _ | ⟨w', ws''⟩
    · simp only [joinSpace, splitWsChars]
      rw [show w = w ++ ([] : List Char) by simp,
        splitWsAux_append w [] [] (by
          simpa using h2 w (List.mem_cons_self _ _))]
      simp only [splitWsAux, List.append_nil, hemp, if_false,
        Bool.false_eq_true, List.reverse_reverse]
    · simp only [joinSpace, splitWsChars]
      rw [splitWsAux_append w [] (' ' :: joinSpace (w' :: ws''))
        (h2 w (List.mem_cons_self _ _))]
      have hsp : isPySpace ' ' = true := rfl
      simp only [List.append_nil, splitWsAux, hsp, if_true, hemp,
        if_false, Bool.false_eq_true, List.reverse_reverse]
      have := ih (fun x hx => h1 x (List.mem_cons_of_mem _ hx))
        (fun x hx => h2 x (List.mem_cons_of_mem _ hx))
      simp only [splitWsChars] at this
      rw [this]

theorem normalizeChars_fixed : ∀ l : List Char,
    (∀ c ∈ l, nfkdChar c = [c] ∧ pyLower c = c ∧ combiningMark c = false ∧
      (isWordChar c = true ∨ c = ' ')) →
    normalizeChars l = l := by
  intro l
  induction l with
  | nil => intro _; rfl
  | cons c l' ih =>
    intro h
    have hc := h c (List.mem_cons_self _ _)
    have hcond : (isWordChar c || isPySpace c) = true := by
      rcases hc.2.2.2 with hw | hsp
      · simp [hw]
      · subst hsp; decide
    have hstep : normalizeChars (c :: l') = c :: normalizeChars l' := by
      simp only [normalizeChars, List.flatMap_cons, hc.1,
        List.singleton_append, List.map_cons, hc.2.1, List.filter_cons,
        hc.2.2.1, Bool.not_false, if_true, hcond]
    rw [hstep, ih (fun x hx => h x (List.mem_cons_of_mem _ hx))]

theorem mem_joinSpace : ∀ (ws : List (List Char)) (c : Char),
    c ∈ joinSpace ws → c = ' ' ∨ ∃ w ∈ ws, c ∈ w := by
  intro ws
  induction ws with
  | nil =>
    intro c hc
    simp [joinSpace] at hc
  | cons w ws' ih =>
    intro c hc
    rcases ws' with _ | ⟨w', ws''⟩
    · exact Or.inr ⟨w, List.mem_cons_self _ _, hc⟩
    · simp only [joinSpace] at hc
      rcases List.mem_append.mp hc with hm | hm
      · exact Or.inr ⟨w, List.mem_cons_self _ _, hm⟩
      · rcases List.mem_cons.mp hm with hm | hm
        · exact Or.inl hm
        · rcases ih c hm with h | ⟨w2, hw2, hcw⟩
          · exact Or.inl h
          · exact Or.inr ⟨w2, List.mem_cons_of_mem _ hw2, hcw⟩

theorem normalize_text_unfold (s : String) (hs : s ≠ "") :
    normalize_text s = ⟨joinSpace (splitWsChars (normalizeChars s.data))⟩ := by
  rw [normalize_text, if_neg hs]

/-- C5: text normalization is idempotent — for every input string `x`,
`normalize_text (normalize_text x) = normalize_text x`
(`normalize.py:15`; the Unicode character primitives are modelled by
the finite tables `nfkdTable`/`lowerTable` over the modelled
alphabet). -/
theorem C5_normalize_idempotent (x : String) :
    normalize_text (normalize_text x) = normalize_text x := by
  by_cases hx : x = ""
  · subst hx; rfl
  · by_cases hy : normalize_text x = ""
    · rw [hy]; rfl
    · have key := normalize_text_unfold
      set ws := splitWsChars (normalizeChars x.data) with hws
      have hchars : ∀ w ∈ ws, ∀ c ∈ w,
          c ∈ normalizeChars x.data ∧ isPySpace c = false := by
        intro w hw c hc
        have := splitWsAux_chars (normalizeChars x.data) [] (by simp) w hw c hc
        rcases this with ⟨hm | hm, hns⟩
        · exact ⟨hm, hns⟩
        · simp at hm
      have hne : ∀ w ∈ ws, w ≠ [] := fun w hw =>
        splitWsAux_ne_nil _ [] w hw
      have hstable : ∀ c ∈ joinSpace ws,
          nfkdChar c = [c] ∧ pyLower c = c ∧ combiningMark c = false ∧
            (isWordChar c = true ∨ c = ' ') := by
        intro c hc
        rcases mem_joinSpace ws c hc with h | ⟨w, hw, hcw⟩
        · subst h
          exact ⟨by decide, by decide, by decide, Or.inr rfl⟩
        · have h2 := hchars w hw c hcw
          rcases mem_normalizeChars _ c h2.1 with ⟨hword, d, hd⟩ | hsp
          · refine ⟨nfkdChar_of_word c hword, ?_,
              word_not_comb c hword, Or.inl hword⟩
            rw [hd]
            exact pyLower_idem d
          · rw [h2.2] at hsp
            exact absurd hsp (by simp)
      have hlist : joinSpace (splitWsChars (normalizeChars (joinSpace ws)))
          = joinSpace ws := by
        rw [normalizeChars_fixed _ hstable,
          splitWs_joinSpace ws hne (fun w hw c hc => (hchars w hw c hc).2)]
      rw [key _ hy, key _ hx]
      exact congrArg String.mk hlist

/-! ## Small projection and table lemmas -/

theorem createMatch_domain (db : OMOPDatabase) (cd : ConceptRow) (conf : ℚ)
    (mt : MatchType) (mtext : String) :
    (createMatch db cd conf mt mtext).domain_id = cd.domain_id := rfl

theorem createMatch_confidence (db : OMOPDatabase) (cd : ConceptRow)
    (conf : ℚ) (mt : MatchType) (mtext : String) :
    (createMatch db cd conf mt mtext).confidence = min conf 1 := rfl

theorem domainOk_some (d x : String) (h : domainOk (some d) x = true)
    (hd : d ≠ "") : x = d := by
  simp only [domainOk, Bool.or_eq_true, decide_eq_true_eq] at h
  rcases h with h | h
  · exact absurd h hd
  · exact h

theorem mem_dedupRows (r : MapsToRow) : ∀ l, r ∈ dedupRows l → r ∈ l := by
  intro l
  induction l with
  | nil => intro h; simp [dedupRows] at h
  | cons x xs ih =>
    intro h
    simp only [dedupRows] at h
    rcases List.mem_cons.mp h with h | h
    · exact h ▸ List.mem_cons_self _ _
    · exact List.mem_cons_of_mem _ (ih (List.mem_of_mem_filter h))

theorem create_maps_to_target (rels : List RelationshipRow)
    (concepts : List OMOPConcept) (r : MapsToRow)
    (h : r ∈ create_maps_to_lookup rels concepts) :
    ∃ t ∈ concepts, t.concept_id = r.standard_concept_id ∧
      t.standard_concept = some "S" ∧ t.invalid_reason = none := by
  have h2 := mem_dedupRows r _ h
  rcases List.mem_flatMap.mp h2 with ⟨cr, _, hr⟩
  rcases List.mem_map.mp hr with ⟨t, ht, htr⟩
  have ht2 := List.mem_filter.mp ht
  have hprops := ht2.2
  simp only [Bool.and_eq_true, decide_eq_true_eq] at hprops
  refine ⟨t, ht2.1, ?_, hprops.1.2, hprops.2⟩
  rw [← htr]

theorem lookupAssoc_mem {α : Type} (l : List (String × α)) (k : String)
    (a : α) (h : lookupAssoc l k = some a) : ∃ p ∈ l, p.2 = a := by
  simp only [lookupAssoc, Option.map_eq_some'] at h
  rcases h with ⟨p, hp, hpa⟩
  exact ⟨p, List.mem_of_find?_eq_some hp, hpa⟩

theorem get_vocab_weight_nonneg (cfg : LookupConfig) (v d : String)
    (hdef : 0 ≤ cfg.default_vocab_weight)
    (htab : ∀ p ∈ cfg.vocabulary_preferences, ∀ q ∈ p.2, 0 ≤ q.2) :
    0 ≤ cfg.get_vocab_weight v d := by
  unfold LookupConfig.get_vocab_weight
  have hpref : ∀ prefs : List (String × ℚ),
      (∀ q ∈ prefs, 0 ≤ q.2) → 0 ≤ (lookupAssoc prefs v).getD
        cfg.default_vocab_weight := by
    intro prefs hq
    rcases hp : lookupAssoc prefs v with _ | a
    · simpa using hdef
    · rcases lookupAssoc_mem prefs v a hp with ⟨p, hpm, hpa⟩
      simpa using hpa ▸ hq p hpm
  apply hpref
  rcases hd : lookupAssoc cfg.vocabulary_preferences d with _ | prefs
  · simp only [Option.getD_none]
    rcases hdd : lookupAssoc cfg.vocabulary_preferences "default" with _ | pd
    · simp
    · simp only [Option.getD_some]
      rcases lookupAssoc_mem _ _ pd hdd with ⟨p, hpm, hpa⟩
      intro q hq
      exact htab p hpm q (hpa ▸ hq)
  · simp only [Option.getD_some]
    rcases lookupAssoc_mem _ _ prefs hd with ⟨p, hpm, hpa⟩
    intro q hq
    exact htab p hpm q (hpa ▸ hq)

/-! ## Claim C7 — no-match result -/

/-- C7 counterexample: on a query with zero candidates from every tier
the result has `success = false`, no best match and no candidates, but
its warning list is `["No matches found"]` (capitalized, `search.py:180`),
not the claimed `["no matches found"]`. -/
theorem C7_counterexample :
    (searchFn DEFAULT_CONFIG dbEmpty false false semNone wrZero "xyz"
      none 5).success = false ∧
    (searchFn DEFAULT_CONFIG dbEmpty false false semNone wrZero "xyz"
      none 5).best_match = none ∧
    (searchFn DEFAULT_CONFIG dbEmpty false false semNone wrZero "xyz"
      none 5).candidates = [] ∧
    (searchFn DEFAULT_CONFIG dbEmpty false false semNone wrZero "xyz"
      none 5).warnings = ["No matches found"] ∧
    (searchFn DEFAULT_CONFIG dbEmpty false false semNone wrZero "xyz"
      none 5).warnings ≠ ["no matches found"] := by
  decide

/-- C7 (amended): for a query yielding zero candidates from every tier
(exact, fuzzy and semantic all empty), the result has `success = false`,
a null best match, an empty candidates list, and carries the warning
`"No matches found"` (the warning literal is capitalized in the code). -/
theorem C7_no_match_result (cfg : LookupConfig) (db : OMOPDatabase)
    (es sa : Bool) (semSearch : String → Nat → List (Int × ℚ))
    (wratio : String → String → ℚ) (q : String) (df : Option String)
    (k : Nat)
    (hex : db.exact_match (normalize_text q) df 10 = [])
    (hfz : fuzzyMatchFn cfg db wratio (normalize_text q)
      (tokenize (normalize_text q)) df = [])
    (hsem : semanticMatch db semSearch (normalize_text q) df (k * 2) = []) :
    (searchFn cfg db es sa semSearch wratio q df k).success = false ∧
    (searchFn cfg db es sa semSearch wratio q df k).best_match = none ∧
    (searchFn cfg db es sa semSearch wratio q df k).candidates = [] ∧
    "No matches found" ∈
      (searchFn cfg db es sa semSearch wratio q df k).warnings := by
  simp only [searchFn]
  rw [(selectBestMatch_eq_none cfg _).mpr hex]
  simp only []
  rw [hfz]
  simp only []
  rcases searchFused_cases cfg db es sa semSearch q (normalize_text q) df k
      [] [] with hc | ⟨w, hc⟩
  · rw [hc, rankAndFinish_nil _ _ _ _ _ _ _ _ _
      (by rw [hsem]; exact merge_and_rank_nil cfg k)]
    simp
  · rw [hc, rankAndFinish_nil _ _ _ _ _ _ _ _ _ (merge_and_rank_nil cfg k)]
    simp

/-- Witness for C7: the empty store with all hypotheses discharged at a
concrete query. -/
theorem C7_no_match_result_witness :
    (searchFn DEFAULT_CONFIG dbEmpty true false semNone wrZero "abc"
      none 5).success = false ∧
    (searchFn DEFAULT_CONFIG dbEmpty true false semNone wrZero "abc"
      none 5).best_match = none ∧
    (searchFn DEFAULT_CONFIG dbEmpty true false semNone wrZero "abc"
      none 5).candidates = [] ∧
    "No matches found" ∈
      (searchFn DEFAULT_CONFIG dbEmpty true false semNone wrZero "abc"
        none 5).warnings :=
  C7_no_match_result DEFAULT_CONFIG dbEmpty true false semNone wrZero
    "abc" none 5 (by decide) (by decide) (by decide)

/-! ## Claim C8 — batch equivalence -/

/-- C8 counterexample: with all defaults, the batch path runs each query
with semantic search enabled and `top_k = 5`, while `lookup` runs with
semantic disabled and `top_k = 10`; on an empty store the two disagree
already in their warning lists. -/
theorem C8_counterexample :
    (batch_lookup DEFAULT_CONFIG dbEmpty false semNone wrZero
      ["xyz"]).results ≠
    [lookup DEFAULT_CONFIG dbEmpty false semNone wrZero "xyz"] := by
  decide

theorem batchFold_results (cfg : LookupConfig) (db : OMOPDatabase)
    (es sa : Bool) (semSearch : String → Nat → List (Int × ℚ))
    (wratio : String → String → ℚ) (domain : Option String) :
    ∀ (qs : List String) (acc : List LookupResult × Nat),
      (qs.foldl (fun (acc : List LookupResult × Nat) q =>
        let r := searchFn cfg db es sa semSearch wratio q domain
        (acc.1 ++ [r], acc.2 + (if r.success then 1 else 0))) acc).1
      = acc.1 ++ qs.map
          (fun q => searchFn cfg db es sa semSearch wratio q domain 5) := by
  intro qs
  induction qs with
  | nil => intro acc; simp
  | cons q qs' ih =>
    intro acc
    simp only [List.foldl_cons, List.map_cons]
    rw [ih]
    simp

/-- C8 (amended): each batch item equals an independent single search
run with the batch's own parameters — `top_k = 5` (the `search` default
used by the batch loop) and the batch's semantic flag; so
`batch_lookup([q]).results = [search(q, domain, 5)]`, and there is no
state shared between batch items.  Equality with `lookup(q)` at the API
defaults fails, because `lookup` defaults to `top_k = 10` with semantic
search disabled while the batch defaults semantic search on. -/
theorem C8_batch_eq_map (cfg : LookupConfig) (db : OMOPDatabase)
    (sa : Bool) (semSearch : String → Nat → List (Int × ℚ))
    (wratio : String → String → ℚ) (queries : List String)
    (domain : Option String) (es : Bool) :
    (batch_lookup cfg db sa semSearch wratio queries domain es).results =
      queries.map
        (fun q => searchFn cfg db es sa semSearch wratio q domain 5) ∧
    ∀ q : String,
      (batch_lookup cfg db sa semSearch wratio [q] domain es).results =
        [searchFn cfg db es sa semSearch wratio q domain 5] := by
  constructor
  · simp only [batch_lookup]
    rw [batchFold_results cfg db es sa semSearch wratio domain queries
      ([], 0)]
    simp
  · intro q
    simp only [batch_lookup]
    rw [batchFold_results cfg db es sa semSearch wratio domain [q]
      ([], 0)]
    simp

/-! ## Claim C9 — lookup API defaults -/

/-- C9 counterexample: `lookup` called with its default arguments equals
the semantic-DISABLED search (`enable_semantic: bool = False` in
`__init__.py:117`, "Disabled by default for speed"), and differs from
the semantic-enabled search the claim describes: on an empty store the
semantic-enabled run records the "Semantic search index not built"
warning which the defaulted call lacks. -/
theorem C9_counterexample :
    lookup DEFAULT_CONFIG dbEmpty false semNone wrZero "xyz" =
      searchFn DEFAULT_CONFIG dbEmpty false false semNone wrZero "xyz"
        none 10 ∧
    lookup DEFAULT_CONFIG dbEmpty false semNone wrZero "xyz" ≠
      searchFn DEFAULT_CONFIG dbEmpty true false semNone wrZero "xyz"
        none 10 :=
  ⟨rfl, by decide⟩

/-- C9 (amended): the single-query API takes the query, an optional
domain defaulting to none, `top_k` defaulting to 10, and a semantic
flag named `enable_semantic` defaulting to FALSE (not true): a call
without the flag behaves as a search with semantic search disabled. -/
theorem C9_lookup_defaults (cfg : LookupConfig) (db : OMOPDatabase)
    (sa : Bool) (semSearch : String → Nat → List (Int × ℚ))
    (wratio : String → String → ℚ) (q : String) :
    lookup cfg db sa semSearch wratio q =
      searchFn cfg db false sa semSearch wratio q none 10 ∧
    ∀ (d : Option String) (k : Nat) (es : Bool),
      lookup cfg db sa semSearch wratio q d k es =
        searchFn cfg db es sa semSearch wratio q d k :=
  ⟨rfl, fun _ _ _ => rfl⟩

/-! ## Claim C2 — exact-match confidence -/

/-- C2: for every query whose normalized form equals the normalized text
of at least one stored search entry (satisfying the domain filter when
one is supplied), search returns `success = true` with a best match
whose confidence is exactly 1.0. -/
theorem C2_exact_match_confidence (cfg : LookupConfig) (db : OMOPDatabase)
    (es sa : Bool) (semSearch : String → Nat → List (Int × ℚ))
    (wratio : String → String → ℚ) (q : String) (df : Option String)
    (k : Nat)
    (h : ∃ s ∈ db.concept_search,
      s.search_text_normalized = normalize_text q ∧
      domainOk df s.domain_id = true) :
    (searchFn cfg db es sa semSearch wratio q df k).success = true ∧
    ∃ m, (searchFn cfg db es sa semSearch wratio q df k).best_match
        = some m ∧ m.confidence = 1 := by
  rcases h with ⟨s, hs, hnorm, hdom⟩
  have hne := exact_match_ne_nil db (normalize_text q) df 10 (by norm_num)
    s hs hnorm hdom
  simp only [searchFn]
  rcases hsel : selectBestMatch cfg (db.exact_match (normalize_text q) df 10)
    with _ | b
  · exact absurd ((selectBestMatch_eq_none cfg _).mp hsel) hne
  · exact ⟨rfl, createMatch db b 1
      (if b.source_type = some "name" then .exact_name else .exact_synonym)
      ((b.search_text).getD ""), rfl,
      by rw [createMatch_confidence]; simp⟩

/-- Witness for C2: the single-row store `dbMI` matched exactly. -/
theorem C2_witness :
    (∃ s ∈ dbMI.concept_search,
      s.search_text_normalized = normalize_text "Myocardial Infarction!" ∧
      domainOk (some "Condition") s.domain_id = true) ∧
    ((searchFn DEFAULT_CONFIG dbMI false false semNone wrZero
      "Myocardial Infarction!" (some "Condition") 5).success = true ∧
    ∃ m, (searchFn DEFAULT_CONFIG dbMI false false semNone wrZero
        "Myocardial Infarction!" (some "Condition") 5).best_match
        = some m ∧ m.confidence = 1) :=
  ⟨⟨rowMI, List.mem_cons_self _ _, by decide, by decide⟩,
    C2_exact_match_confidence DEFAULT_CONFIG dbMI false false semNone
      wrZero "Myocardial Infarction!" (some "Condition") 5
      ⟨rowMI, List.mem_cons_self _ _, by decide, by decide⟩⟩

/-! ## Claim C1 — canonicalization invariant -/

/-- C1: for every `ConceptMatch` produced by `_create_match` against a
store whose `maps_to_lookup` table was built by
`_create_maps_to_lookup` (and whose concept ids are unique): with
status already-standard the analytics id is the concept's own id; with
status mapped-to-standard the analytics id equals the resolved standard
concept id and the resolved target concept's standard flag is `"S"`;
with status no-mapping-available the analytics id is `none`. -/
theorem C1_canonicalization (db : OMOPDatabase)
    (rels : List RelationshipRow) (cd : ConceptRow) (conf : ℚ)
    (mt : MatchType) (mtext : String) (m : ConceptMatch)
    (hm : m = createMatch db cd conf mt mtext)
    (hbuilt : db.maps_to_lookup = create_maps_to_lookup rels db.concept)
    (hnodup : (db.concept.map (fun c => c.concept_id)).Nodup) :
    (m.resolution_status = .already_standard →
      m.get_analytics_concept_id = some m.concept_id) ∧
    (m.resolution_status = .mapped_to_standard →
      ∃ sid, m.standard_concept_id = some sid ∧
        m.get_analytics_concept_id = some sid ∧
        ∃ t, db.get_concept_by_id sid = some t ∧
          t.standard_concept = some "S") ∧
    (m.resolution_status = .no_mapping_available →
      m.get_analytics_concept_id = none) := by
  subst hm
  by_cases hstd : cd.standard_concept = some "S"
  · refine ⟨fun _ => ?_, fun habs => ?_, fun habs => ?_⟩
    · simp [ConceptMatch.get_analytics_concept_id, createMatch, hstd]
    · simp [createMatch, hstd] at habs
    · simp [createMatch, hstd] at habs
  · rcases hmap : db.get_maps_to cd.concept_id with _ | row
    · refine ⟨fun habs => ?_, fun habs => ?_, fun _ => ?_⟩
      · simp [createMatch, hstd, hmap] at habs
      · simp [createMatch, hstd, hmap] at habs
      · simp [ConceptMatch.get_analytics_concept_id, createMatch, hstd,
          hmap]
    · refine ⟨fun habs => ?_, fun _ => ?_, fun habs => ?_⟩
      · simp [createMatch, hstd, hmap] at habs
      · refine ⟨row.standard_concept_id, ?_, ?_, ?_⟩
        · simp [createMatch, hstd, hmap]
        · simp [ConceptMatch.get_analytics_concept_id, createMatch,
            hstd, hmap]
        · have hrow : row ∈ db.maps_to_lookup :=
            List.mem_of_find?_eq_some hmap
          rw [hbuilt] at hrow
          rcases create_maps_to_target rels db.concept row hrow with
            ⟨t, ht, htid, htS, _⟩
          rcases hfind : db.concept.find?
              (fun c => c.concept_id = row.standard_concept_id)
            with _ | t2
          · exfalso
            rw [List.find?_eq_none] at hfind
            exact hfind t ht (by simp [htid])
          · have ht2mem := List.mem_of_find?_eq_some hfind
            have ht2id := List.find?_some hfind
            simp only [decide_eq_true_eq] at ht2id
            have hteq : t2 = t := by
              have hinj := List.inj_on_of_nodup_map hnodup
              exact hinj ht2mem ht (by rw [ht2id, htid])
            refine ⟨t2.toDict, ?_, ?_⟩
            · simp only [OMOPDatabase.get_concept_by_id, hfind,
                Option.map_some']
            · rw [hteq]
              simpa [OMOPConcept.toDict] using htS
      · simp [createMatch, hstd, hmap] at habs

/-- Non-standard source concept used by the C1 witness. -/
def conceptNS : OMOPConcept :=
  { concept_id := 10, concept_name := "Acute myocardial infarction code",
    domain_id := "Condition", vocabulary_id := "ICD10CM",
    concept_class_id := "ICD10 code", standard_concept := none,
    concept_code := some "I21", invalid_reason := none }

/-- Standard target concept used by the C1 witness. -/
def conceptSTD : OMOPConcept :=
  { concept_id := 20, concept_name := "Acute myocardial infarction",
    domain_id := "Condition", vocabulary_id := "SNOMED",
    concept_class_id := "Clinical Finding", standard_concept := some "S",
    concept_code := some "57054005", invalid_reason := none }

/-- "Maps to" relationship row from 10 to 20. -/
def relMap : RelationshipRow :=
  { concept_id_1 := 10, concept_id_2 := 20,
    relationship_id := "Maps to", invalid_reason := none }

/-- Store built from `conceptNS`, `conceptSTD`, `relMap`. -/
def dbMaps : OMOPDatabase :=
  { concept := [conceptNS, conceptSTD], concept_search := [],
    maps_to_lookup := create_maps_to_lookup [relMap]
      [conceptNS, conceptSTD] }

/-- Searcher-facing row for the non-standard concept. -/
def rowNS : ConceptRow :=
  { concept_id := 10, search_text := some "Acute myocardial infarction code",
    source_type := some "name",
    concept_name := "Acute myocardial infarction code",
    domain_id := "Condition", vocabulary_id := "ICD10CM",
    concept_class_id := some "ICD10 code", standard_concept := none,
    concept_code := some "I21" }

/-- Witness for C1: the build joins 10 → 20 and the created match
resolves to the standard concept 20, whose flag is `"S"`. -/
theorem C1_witness :
    (dbMaps.maps_to_lookup
      = create_maps_to_lookup [relMap] dbMaps.concept) ∧
    (((createMatch dbMaps rowNS (9/10) .fuzzy_name
        "acute myocardial infarction code").resolution_status
        = .already_standard →
      (createMatch dbMaps rowNS (9/10) .fuzzy_name
        "acute myocardial infarction code").get_analytics_concept_id
        = some (createMatch dbMaps rowNS (9/10) .fuzzy_name
          "acute myocardial infarction code").concept_id) ∧
    ((createMatch dbMaps rowNS (9/10) .fuzzy_name
        "acute myocardial infarction code").resolution_status
        = .mapped_to_standard →
      ∃ sid, (createMatch dbMaps rowNS (9/10) .fuzzy_name
          "acute myocardial infarction code").standard_concept_id
          = some sid ∧
        (createMatch dbMaps rowNS (9/10) .fuzzy_name
          "acute myocardial infarction code").get_analytics_concept_id
          = some sid ∧
        ∃ t, dbMaps.get_concept_by_id sid = some t ∧
          t.standard_concept = some "S") ∧
    ((createMatch dbMaps rowNS (9/10) .fuzzy_name
        "acute myocardial infarction code").resolution_status
        = .no_mapping_available →
      (createMatch dbMaps rowNS (9/10) .fuzzy_name
        "acute myocardial infarction code").get_analytics_concept_id
        = none)) :=
  ⟨rfl, C1_canonicalization dbMaps [relMap] rowNS (9/10) .fuzzy_name
    "acute myocardial infarction code" _ rfl rfl (by decide)⟩

/-! ## Claim C4 — fused confidence formula -/

/-- C4: in the fused ranking tier every candidate's combined score
equals `max(0.7·fuzzy + 0.3·semantic, fuzzy, semantic)` — the fuzzy
component being a fuzzy result's score divided by 100 and an absent
signal contributing 0 — multiplied by the vocabulary-preference weight,
the source-type boost and the standardness boost; and the `ConceptMatch`
created from it carries that product capped above at 1.0. -/
theorem C4_fused_confidence (cfg : LookupConfig) (db : OMOPDatabase)
    (fz : List FuzzyResult) (semR : List SemResult) (top_k : Nat) :
    ∀ sc ∈ merge_and_rank cfg fz semR top_k,
      ((∃ r ∈ fz, sc.cand.concept = r.concept ∧
          sc.cand.fuzzy_score = r.score / 100) ∨
        sc.cand.fuzzy_score = 0) ∧
      ((∃ r ∈ semR, sc.cand.semantic_score = r.score) ∨
        sc.cand.semantic_score = 0) ∧
      sc.combined_score =
        fusedBase sc.cand.fuzzy_score sc.cand.semantic_score
          * cfg.get_vocab_weight sc.cand.concept.vocabulary_id
              sc.cand.concept.domain_id
          * sourceBoost sc.cand.concept * standardBoost sc.cand.concept ∧
      ∀ mtext, (createMatch db sc.cand.concept sc.combined_score
          sc.cand.match_type mtext).confidence
        = min sc.combined_score 1 := by
  intro sc hsc
  rcases merge_and_rank_prov cfg fz semR top_k sc hsc with ⟨heq, hprov⟩
  refine ⟨?_, hprov.2, ?_, ?_⟩
  · rcases hprov.1 with ⟨r, hr, h1, h2⟩ | ⟨h0, _⟩
    · exact Or.inl ⟨r, hr, h1, h2⟩
    · exact Or.inr h0
  · rw [heq]
    rfl
  · intro mtext
    rw [createMatch_confidence]

/-- Fuzzy-tier input list used by the C4 witness. -/
def fzX : List FuzzyResult :=
  [{ concept := rowMI.toCandDict, score := 80,
     matched_text := "myocardial infarction" }]

/-- Semantic-tier input list used by the C4 witness (same concept id,
so it merges into the fuzzy candidate). -/
def semX : List SemResult :=
  [{ concept := rowMI.toCandDict, score := 1/2,
     matched_text := "Myocardial infarction" }]

/-- The merged candidate produced from `fzX`/`semX`: fuzzy 0.8 and
semantic 0.5 fuse to base 0.8 (the single-signal max wins), and all
three weights are 1 for a standard SNOMED name row. -/
def candX : Cand :=
  { concept := rowMI.toCandDict, fuzzy_score := 4/5,
    semantic_score := 1/2, match_type := .fuzzy_name }

def scX : ScoredCand :=
  { cand := candX, combined_score := 4/5 }

theorem mergeX_eval : merge_and_rank DEFAULT_CONFIG fzX semX 5 = [scX] := by
  norm_num [merge_and_rank, setAssoc, updSemAssoc, fuzzyCand, semCand,
    combinedScore, fusedBase, sourceBoost, standardBoost,
    LookupConfig.get_vocab_weight, lookupAssoc, defaultVocabPrefs,
    DEFAULT_CONFIG, sortDescBy, insertDescBy, fzX, semX, scX, candX,
    rowMI, SearchRow.toCandDict]

/-- Witness for C4 at the concrete merged candidate `scX`. -/
theorem C4_witness :
    ((∃ r ∈ fzX, scX.cand.concept = r.concept ∧
        scX.cand.fuzzy_score = r.score / 100) ∨
      scX.cand.fuzzy_score = 0) ∧
    ((∃ r ∈ semX, scX.cand.semantic_score = r.score) ∨
      scX.cand.semantic_score = 0) ∧
    scX.combined_score =
      fusedBase scX.cand.fuzzy_score scX.cand.semantic_score
        * DEFAULT_CONFIG.get_vocab_weight scX.cand.concept.vocabulary_id
            scX.cand.concept.domain_id
        * sourceBoost scX.cand.concept * standardBoost scX.cand.concept ∧
    ∀ mtext, (createMatch dbEmpty scX.cand.concept scX.combined_score
        scX.cand.match_type mtext).confidence
      = min scX.combined_score 1 :=
  C4_fused_confidence DEFAULT_CONFIG dbEmpty fzX semX 5 scX
    (by rw [mergeX_eval]; exact List.mem_cons_self _ _)

/-! ## Claim C3 — success iff confidence meets threshold -/

theorem rankAndFinish_success_iff (cfg : LookupConfig) (db : OMOPDatabase)
    (q nq : String) (df : Option String) (k : Nat)
    (fz : List FuzzyResult) (semR : List SemResult) (w : List String) :
    ((rankAndFinish cfg db q nq df k fz semR w).success = true ↔
      ∃ m, (rankAndFinish cfg db q nq df k fz semR w).best_match = some m ∧
        cfg.confidence_threshold ≤ m.confidence) := by
  simp only [rankAndFinish]
  rcases hm : merge_and_rank cfg fz semR k with _ | ⟨c0, crest⟩
  · simp
  · simp only []
    constructor
    · intro hs
      simp only [decide_eq_true_eq] at hs
      exact ⟨_, rfl, hs⟩
    · rintro ⟨m, hm2, hle⟩
      simp only [Option.some_inj] at hm2
      simp only [decide_eq_true_eq]
      rw [← hm2] at hle
      exact hle

/-- C3 (amended): for every query, `success = true` iff the returned
best match's confidence is at least `config.confidence_threshold`,
PROVIDED the threshold does not exceed the early-exit confidence levels
(at most 1.0 and at most `fuzzy_high_confidence / 100`); the exact-match
and high-confidence-fuzzy early exits set `success = true`
unconditionally, so with larger thresholds the iff fails on those
paths. -/
theorem C3_success_iff_threshold (cfg : LookupConfig) (db : OMOPDatabase)
    (es sa : Bool) (semSearch : String → Nat → List (Int × ℚ))
    (wratio : String → String → ℚ) (q : String) (df : Option String)
    (k : Nat)
    (h1 : cfg.confidence_threshold ≤ 1)
    (h2 : cfg.confidence_threshold * 100 ≤ cfg.fuzzy_high_confidence) :
    ((searchFn cfg db es sa semSearch wratio q df k).success = true ↔
      ∃ m, (searchFn cfg db es sa semSearch wratio q df k).best_match
          = some m ∧
        cfg.confidence_threshold ≤ m.confidence) := by
  simp only [searchFn]
  rcases hsel : selectBestMatch cfg (db.exact_match (normalize_text q) df 10)
    with _ | b
  · simp only []
    rcases hfz : fuzzyMatchFn cfg db wratio (normalize_text q)
        (tokenize (normalize_text q)) df with _ | ⟨bf, rest⟩
    · rcases searchFused_cases cfg db es sa semSearch q (normalize_text q)
          df k [] [] with hc | ⟨w, hc⟩ <;> rw [hc] <;>
        exact rankAndFinish_success_iff cfg db q (normalize_text q) df k
          [] _ _
    · simp only []
      by_cases hhigh : cfg.fuzzy_high_confidence ≤ bf.score
      · rw [if_pos hhigh]
        constructor
        · intro _
          refine ⟨_, rfl, ?_⟩
          rw [createMatch_confidence]
          refine le_min ?_ h1
          rw [le_div_iff₀ (by norm_num : (0:ℚ) < 100)]
          exact le_trans h2 hhigh
        · intro _
          trivial
      · rw [if_neg hhigh]
        rcases searchFused_cases cfg db es sa semSearch q (normalize_text q)
            df k (bf :: rest) [] with hc | ⟨w, hc⟩ <;> rw [hc] <;>
          exact rankAndFinish_success_iff cfg db q (normalize_text q) df k
            (bf :: rest) _ _
  · simp only []
    constructor
    · intro _
      refine ⟨_, rfl, ?_⟩
      rw [createMatch_confidence]
      simpa using h1
    · intro _
      trivial

/-- Config with a confidence threshold above the fuzzy early-exit
level, used by the C3 counterexample. -/
def cfgC3 : LookupConfig := { confidence_threshold := 97/100 }

/-- Near-miss row (one extra token) used by the C3 counterexample. -/
def rowC3 : SearchRow :=
  { rowMI with
    search_text := "Myocardial infarction X",
    search_text_normalized := "myocardial infarction x" }

/-- Store holding the single near-miss row. -/
def dbC3 : OMOPDatabase :=
  { concept := [], concept_search := [rowC3], maps_to_lookup := [] }

/-- C3 counterexample: with `confidence_threshold = 0.97`, a
high-confidence fuzzy early exit (score 95) returns `success = true`
although the best match's confidence 0.95 is BELOW the threshold, so
success is not equivalent to meeting the threshold on every path. -/
theorem C3_counterexample :
    (searchFn cfgC3 dbC3 false false semNone wr95 "myocardial infarction"
      none 5).success = true ∧
    ((searchFn cfgC3 dbC3 false false semNone wr95 "myocardial infarction"
      none 5).best_match.map
        (fun m => decide (cfgC3.confidence_threshold ≤ m.confidence)))
      = some false := by
  have hsel : selectBestMatch cfgC3
      (dbC3.exact_match (normalize_text "myocardial infarction") none 10)
      = none := by decide
  have hfz : fuzzyMatchFn cfgC3 dbC3 wr95
      (normalize_text "myocardial infarction")
      (tokenize (normalize_text "myocardial infarction")) none
      = [{ concept := rowC3.toCandDict, score := 95,
           matched_text := "myocardial infarction x" }] := by decide
  simp only [searchFn]
  rw [hsel]
  simp only []
  rw [hfz]
  simp only []
  rw [if_pos (by norm_num [cfgC3] : cfgC3.fuzzy_high_confidence ≤ (95:ℚ))]
  refine ⟨rfl, ?_⟩
  simp only [Option.map_some', createMatch_confidence, Option.some_inj]
  rw [decide_eq_false_iff_not]
  norm_num [cfgC3]

/-- Witness for C3 at the default configuration (threshold 0.75 ≤ 1 and
75 ≤ 95) on the single-row store. -/
theorem C3_witness :
    ((searchFn DEFAULT_CONFIG dbMI false false semNone wrZero
      "Myocardial Infarction!" none 5).success = true ↔
      ∃ m, (searchFn DEFAULT_CONFIG dbMI false false semNone wrZero
          "Myocardial Infarction!" none 5).best_match = some m ∧
        DEFAULT_CONFIG.confidence_threshold ≤ m.confidence) :=
  C3_success_iff_threshold DEFAULT_CONFIG dbMI false false semNone wrZero
    "Myocardial Infarction!" none 5 (by norm_num [DEFAULT_CONFIG])
    (by norm_num [DEFAULT_CONFIG])

/-! ## Claim C6 — domain filter -/

theorem toExactDict_domain (s : SearchRow) :
    (s.toExactDict).domain_id = s.domain_id := rfl

theorem toCandDict_domain (s : SearchRow) :
    (s.toCandDict).domain_id = s.domain_id := rfl

/-- C6 counterexample: Python guards the filter with
`if domain_filter:`, so the empty string — a supplied filter — is
treated as "no filter": the returned match's domain is `"Condition"`,
not the requested `""`. -/
theorem C6_counterexample :
    ((searchFn DEFAULT_CONFIG dbMI false false semNone wrZero
      "Myocardial Infarction!" (some "") 5).best_match.map
        (fun m => m.domain_id)) = some "Condition" ∧
    ("Condition" : String) ≠ "" := by
  decide

/-- Auxiliary chain for C6: every fuzzy result's concept passed the
domain filter. -/
theorem fuzzy_concept_domain (cfg : LookupConfig) (db : OMOPDatabase)
    (wratio : String → String → ℚ) (nq : String) (tokens : List String)
    (d : String) (hd : d ≠ "") (bf : FuzzyResult)
    (hbf : bf ∈ fuzzyMatchFn cfg db wratio nq tokens (some d)) :
    bf.concept.domain_id = d := by
  rcases fuzzyMatchFn_mem cfg db wratio nq tokens (some d) bf hbf with
    ⟨c, hc, hconc, _, _⟩
  rcases candidates_mem db tokens (some d) 1 cfg.max_fuzzy_candidates c hc
    with ⟨s, _, hcs, hdom⟩
  rw [hconc, hcs, toCandDict_domain]
  exact domainOk_some d _ hdom hd

/-- C6 (amended): whenever a NON-EMPTY domain filter is supplied, every
returned candidate (best match and every alternate, from any tier) has
a domain equal to the filter.  The empty string is excluded: Python's
`if domain_filter:` truthiness check disables filtering for `""`. -/
theorem C6_domain_filter (cfg : LookupConfig) (db : OMOPDatabase)
    (es sa : Bool) (semSearch : String → Nat → List (Int × ℚ))
    (wratio : String → String → ℚ) (q : String) (d : String) (k : Nat)
    (hd : d ≠ "") :
    (∀ m, (searchFn cfg db es sa semSearch wratio q (some d) k).best_match
        = some m → m.domain_id = d) ∧
    (∀ m ∈ (searchFn cfg db es sa semSearch wratio q (some d) k).candidates,
      m.domain_id = d) := by
  have main : ∀ m,
      ((searchFn cfg db es sa semSearch wratio q (some d) k).best_match
          = some m ∨
        m ∈ (searchFn cfg db es sa semSearch wratio q (some d) k).candidates)
      → m.domain_id = d := by
    intro m hm
    rcases searchFn_match_prov cfg db es sa semSearch wratio q (some d) k m
        hm with
      ⟨b, hb, hmeq⟩ | ⟨bf, hbf, hmeq⟩ | ⟨semR, hsemR, sc, hsc, hmeq⟩
    · subst hmeq
      rw [createMatch_domain]
      rcases exact_match_mem db _ _ _ b hb with ⟨s, _, hbs, _, hdom⟩
      rw [hbs, toExactDict_domain]
      exact domainOk_some d _ hdom hd
    · subst hmeq
      rw [createMatch_domain]
      exact fuzzy_concept_domain cfg db wratio _ _ d hd bf hbf
    · subst hmeq
      rw [createMatch_domain]
      rcases merge_and_rank_prov cfg _ semR k sc hsc with ⟨_, hprov⟩
      rcases hprov.1 with ⟨r, hr, hconc, _⟩ | ⟨_, r, hr, hconc⟩
      · rw [hconc]
        exact fuzzy_concept_domain cfg db wratio _ _ d hd r hr
      · rcases hsemR with hsem | hsem
        · subst hsem
          rcases semanticMatch_mem db semSearch _ (some d) (k * 2) r hr
            with ⟨p, _, c, _, hdom, hrc⟩
          rw [hconc, hrc]
          exact domainOk_some d _ hdom hd
        · subst hsem
          simp at hr
  exact ⟨fun m h => main m (Or.inl h), fun m h => main m (Or.inr h)⟩

/-- Witness for C6 with the non-empty filter `"Condition"` on the
single-row store. -/
theorem C6_witness :
    (∀ m, (searchFn DEFAULT_CONFIG dbMI false false semNone wrZero
        "Myocardial Infarction!" (some "Condition") 5).best_match
        = some m → m.domain_id = "Condition") ∧
    (∀ m ∈ (searchFn DEFAULT_CONFIG dbMI false false semNone wrZero
        "Myocardial Infarction!" (some "Condition") 5).candidates,
      m.domain_id = "Condition") :=
  C6_domain_filter DEFAULT_CONFIG dbMI false false semNone wrZero
    "Myocardial Infarction!" "Condition" 5 (by decide)

/-! ## Claim C10 — confidence bounds -/

theorem sourceBoost_nonneg (c : ConceptRow) : 0 ≤ sourceBoost c := by
  unfold sourceBoost
  split <;> norm_num

theorem standardBoost_nonneg (c : ConceptRow) : 0 ≤ standardBoost c := by
  unfold standardBoost
  split <;> norm_num

theorem fusedBase_ge_fuzzy (f s : ℚ) : f ≤ fusedBase f s :=
  le_trans (le_max_right (f * (7/10) + s * (3/10)) f)
    (le_max_left _ s)

/-- Lower bound of a fuzzy result's score. -/
theorem fuzzy_score_nonneg (cfg : LookupConfig) (db : OMOPDatabase)
    (wratio : String → String → ℚ) (nq : String) (tokens : List String)
    (df : Option String) (hw : ∀ a b, 0 ≤ wratio a b) (r : FuzzyResult)
    (hr : r ∈ fuzzyMatchFn cfg db wratio nq tokens df) : 0 ≤ r.score := by
  rcases fuzzyMatchFn_mem cfg db wratio nq tokens df r hr with
    ⟨c, _, _, hsc, _⟩
  rw [hsc]
  exact hw nq (candText c)

/-- C10: every `ConceptMatch` returned by search (best match or
alternate, on any path) has confidence in `[0,1]`, provided the fuzzy
oracle returns non-negative scores and the configured vocabulary
weights are non-negative — even when a candidate's only signal is a
negative semantic similarity, since the zero fuzzy score participates
in the fusion max and the final confidence is capped at 1.0. -/
theorem C10_confidence_bounds (cfg : LookupConfig) (db : OMOPDatabase)
    (es sa : Bool) (semSearch : String → Nat → List (Int × ℚ))
    (wratio : String → String → ℚ) (q : String) (df : Option String)
    (k : Nat)
    (hw : ∀ a b, 0 ≤ wratio a b)
    (hv : ∀ v d2, 0 ≤ cfg.get_vocab_weight v d2) :
    ∀ m, ((searchFn cfg db es sa semSearch wratio q df k).best_match
        = some m ∨
      m ∈ (searchFn cfg db es sa semSearch wratio q df k).candidates) →
      0 ≤ m.confidence ∧ m.confidence ≤ 1 := by
  intro m hm
  rcases searchFn_match_prov cfg db es sa semSearch wratio q df k m hm with
    ⟨b, hb, hmeq⟩ | ⟨bf, hbf, hmeq⟩ | ⟨semR, hsemR, sc, hsc, hmeq⟩
  · subst hmeq
    rw [createMatch_confidence]
    constructor
    · norm_num
    · exact min_le_right _ _
  · subst hmeq
    rw [createMatch_confidence]
    refine ⟨le_min ?_ (by norm_num), min_le_right _ _⟩
    have := fuzzy_score_nonneg cfg db wratio _ _ df hw bf hbf
    positivity
  · subst hmeq
    rw [createMatch_confidence]
    refine ⟨le_min ?_ (by norm_num), min_le_right _ _⟩
    rcases merge_and_rank_prov cfg _ semR k sc hsc with ⟨heq, hprov⟩
    rw [heq]
    unfold combinedScore
    have hf : 0 ≤ sc.cand.fuzzy_score := by
      rcases hprov.1 with ⟨r, hr, _, hfs⟩ | ⟨h0, _⟩
      · rw [hfs]
        have := fuzzy_score_nonneg cfg db wratio _ _ df hw r hr
        positivity
      · rw [h0]
    have hbase : 0 ≤ fusedBase sc.cand.fuzzy_score sc.cand.semantic_score :=
      le_trans hf (fusedBase_ge_fuzzy _ _)
    exact mul_nonneg (mul_nonneg (mul_nonneg hbase (hv _ _))
      (sourceBoost_nonneg _)) (standardBoost_nonneg _)

/-- Non-negativity of the default vocabulary preference table. -/
theorem defaultPrefs_nonneg :
    ∀ p ∈ DEFAULT_CONFIG.vocabulary_preferences, ∀ q ∈ p.2, 0 ≤ q.2 := by
  intro p hp
  fin_cases hp <;> (intro q hq; fin_cases hq <;> norm_num)

/-- The concrete best match returned for "Myocardial Infarction!" on
the single-row store. -/
def mX : ConceptMatch :=
  { concept_id := 1, concept_name := "Myocardial infarction",
    domain_id := "Condition", vocabulary_id := "SNOMED",
    concept_class_id := "Clinical Finding", standard_concept := some "S",
    confidence := 1, match_type := .exact_name,
    matched_text := "Myocardial infarction",
    resolution_status := .already_standard,
    standard_concept_id := none, standard_concept_name := none,
    concept_code := some "22298006" }

/-- Witness for C10 at the default configuration on the single-row
store, instantiated at the concrete returned match `mX`. -/
theorem C10_witness :
    ((searchFn DEFAULT_CONFIG dbMI false false semNone wrZero
        "Myocardial Infarction!" none 5).best_match = some mX ∨
      mX ∈ (searchFn DEFAULT_CONFIG dbMI false false semNone wrZero
        "Myocardial Infarction!" none 5).candidates) ∧
    (0 ≤ mX.confidence ∧ mX.confidence ≤ 1) :=
  ⟨Or.inl (by decide),
    C10_confidence_bounds DEFAULT_CONFIG dbMI false false semNone wrZero
      "Myocardial Infarction!" none 5 (fun _ _ => le_refl 0)
      (fun v d2 => get_vocab_weight_nonneg DEFAULT_CONFIG v d2
        (by norm_num [DEFAULT_CONFIG]) defaultPrefs_nonneg)
      mX (Or.inl (by decide))⟩
